import Mathlib

/-!
Shallow embedding of the Epharma backend (TypeScript sources) and proofs
about its order, payment, prescription and auth-middleware operations.

Persistent state is modelled as lists of entity rows; ORM `findOne` is
`List.find?` over a row list, and ORM `save` is update-by-id or append.
Stateful service methods are functions `DB → Except AppError α × DB`;
a thrown `AppError` is an `Except.error` carrying the message and HTTP
status code, and the partially mutated state is carried alongside so that
the `transaction` wrapper can model rollback faithfully.

Numbers: SQL decimal amounts are `Rat`; integer columns and caller-supplied
quantities are `Int` (the HTTP layer never validates them). Timestamp
columns (`createdAt`, `updatedAt`, `approvedAt`) and randomly generated
ids (`generateRefundId`) carry no logic used by any claim and are omitted;
database-generated primary keys are supplied as explicit parameters.
-/

set_option allowUnsafeReducibility true in
attribute [semireducible] Rat.add Rat.mul Rat.blt

instance {ε α : Type} [DecidableEq ε] [DecidableEq α] : DecidableEq (Except ε α) :=
  fun a b =>
    match a, b with
    | Except.ok x, Except.ok y =>
      if h : x = y then isTrue (by rw [h]) else isFalse (fun hc => h (Except.ok.inj hc))
    | Except.error x, Except.error y =>
      if h : x = y then isTrue (by rw [h]) else isFalse (fun hc => h (Except.error.inj hc))
    | Except.ok _, Except.error _ => isFalse (fun hc => Except.noConfusion hc)
    | Except.error _, Except.ok _ => isFalse (fun hc => Except.noConfusion hc)

namespace EPharma

/-- `UserRole` from src/types (src/unnamed/part_014). -/
inductive UserRole where
  | user
  | admin
  | pharmacy
deriving DecidableEq, Repr

/-- `OrderStatus` from src/types. -/
inductive OrderStatus where
  | pending
  | approved
  | shipped
  | delivered
  | cancelled
deriving DecidableEq, Repr

/-- `PrescriptionStatus` from src/types. -/
inductive PrescriptionStatus where
  | pending
  | approved
  | rejected
deriving DecidableEq, Repr

/-- `ProductStatus` from src/types. -/
inductive ProductStatus where
  | active
  | inactive
  | pendingApproval
deriving DecidableEq, Repr

/-- `Product` entity (src/unnamed/part_016). -/
structure Product where
  id : String
  name : String
  description : String
  price : Rat
  stockQuantity : Int
  category : String
  imageUrl : Option String
  requiresPrescription : Bool
  status : ProductStatus
  pharmacyId : String
deriving DecidableEq, Repr

/-- `Order` entity (src/unnamed/part_015). -/
structure Order where
  id : String
  userId : String
  totalAmount : Rat
  status : OrderStatus
  shippingAddress : String
  prescriptionId : Option String
  notes : Option String
deriving DecidableEq, Repr

/-- `OrderItem` entity (src/src/entities/OrderItem.ts). -/
structure OrderItem where
  id : String
  orderId : String
  productId : String
  quantity : Int
  unitPrice : Rat
  totalPrice : Rat
deriving DecidableEq, Repr

/-- `Prescription` entity (src/src/entities/Prescription.ts). -/
structure Prescription where
  id : String
  userId : String
  fileName : String
  filePath : String
  originalName : String
  fileSize : Int
  mimeType : String
  status : PrescriptionStatus
  adminNotes : Option String
  approvedBy : Option String
deriving DecidableEq, Repr

/-- The fields of the `User` entity used by the order/prescription services. -/
structure User where
  id : String
  email : String
  role : UserRole
deriving DecidableEq, Repr

/-- The persistent relational state: one row list per entity table. -/
structure DB where
  users : List User
  products : List Product
  orders : List Order
  orderItems : List OrderItem
  prescriptions : List Prescription
deriving DecidableEq, Repr

/-- `AppError` from src/middleware/errorHandler: message plus HTTP status. -/
structure AppError where
  message : String
  statusCode : Nat
deriving DecidableEq, Repr

/-- JavaScript string truthiness, as applied to optional string fields:
`undefined` and the empty string are both falsy. -/
def jsTruthyStr (s : Option String) : Option String :=
  match s with
  | none => none
  | some t => if t = "" then none else some t

/-- ORM `findOne(Product, { where: { id } })`. -/
def findProduct (db : DB) (pid : String) : Option Product :=
  db.products.find? (fun p => p.id == pid)

/-- ORM `save(product)`: update the row with this primary key, or insert. -/
def saveProduct (db : DB) (p : Product) : DB :=
  if db.products.any (fun q => q.id == p.id) then
    { db with products := db.products.map (fun q => if q.id == p.id then p else q) }
  else
    { db with products := db.products ++ [p] }

/-- ORM `save(order)` for an existing order row. -/
def saveOrder (db : DB) (o : Order) : DB :=
  if db.orders.any (fun q => q.id == o.id) then
    { db with orders := db.orders.map (fun q => if q.id == o.id then o else q) }
  else
    { db with orders := db.orders ++ [o] }

/-- ORM `save(prescription)` for an existing prescription row. -/
def savePrescription (db : DB) (p : Prescription) : DB :=
  if db.prescriptions.any (fun q => q.id == p.id) then
    { db with prescriptions := db.prescriptions.map (fun q => if q.id == p.id then p else q) }
  else
    { db with prescriptions := db.prescriptions ++ [p] }

/-- `AppDataSource.transaction`: run the body; on a thrown error the
database is rolled back to the state at the start of the transaction. -/
def transaction {α : Type} (db : DB) (body : DB → Except AppError α × DB) :
    Except AppError α × DB :=
  match body db with
  | (Except.ok a, db1) => (Except.ok a, db1)
  | (Except.error e, _) => (Except.error e, db)

/-- One entry of `CreateOrderData.items` (src/services/OrderService). -/
structure CartItem where
  productId : String
  quantity : Int
deriving DecidableEq, Repr

/-- `CreateOrderData` (src/services/OrderService). -/
structure CreateOrderData where
  items : List CartItem
  shippingAddress : String
  prescriptionId : Option String
  notes : Option String
deriving DecidableEq, Repr

/-- The fields of `OrderSummary` returned by `createOrder` that carry
order data (`createdAt` omitted). -/
structure OrderSummary where
  id : String
  totalAmount : Rat
  status : OrderStatus
  shippingAddress : String
deriving DecidableEq, Repr

/-- An order item built inside the `createOrder` loop, before the
database assigns its id and the order id is known. -/
structure PendingOrderItem where
  productId : String
  quantity : Int
  unitPrice : Rat
  totalPrice : Rat
deriving DecidableEq, Repr

/-- The `for (const item of items)` loop of `OrderService.createOrder`:
fetch each product, reject a missing product (404) or insufficient stock
(400), accumulate the total and the prescription flag, build the order
item, and save the decremented stock. -/
def processItems : List CartItem → Rat → Bool → List PendingOrderItem → DB →
    Except AppError (Rat × Bool × List PendingOrderItem) × DB
  | [], total, reqRx, acc, db => (Except.ok (total, reqRx, acc), db)
  | item :: rest, total, reqRx, acc, db =>
    match findProduct db item.productId with
    | none => (Except.error ⟨"Product not found: " ++ item.productId, 404⟩, db)
    | some product =>
      if product.stockQuantity < item.quantity then
        (Except.error ⟨"Insufficient stock for product: " ++ product.name, 400⟩, db)
      else
        let itemTotal : Rat := product.price * (item.quantity : Rat)
        let oi : PendingOrderItem :=
          ⟨product.id, item.quantity, product.price, itemTotal⟩
        let db1 := saveProduct db { product with stockQuantity := product.stockQuantity - item.quantity }
        processItems rest (total + itemTotal) (reqRx || product.requiresPrescription) (acc ++ [oi]) db1

/-- `validate(order)` (class-validator): the only decorated column set by
`createOrder` is `totalAmount`, annotated `@IsPositive()`. -/
def validateOrderEntity (o : Order) : Bool :=
  decide (0 < o.totalAmount)

/-- Assign database-generated ids and the order id to the pending items,
in loop order. -/
def mkOrderItems : List String → String → List PendingOrderItem → List OrderItem
  | _, _, [] => []
  | ids, oid, p :: rest =>
    ⟨ids.headD "", oid, p.productId, p.quantity, p.unitPrice, p.totalPrice⟩ ::
      mkOrderItems ids.tail oid rest

/-- The transaction body of `OrderService.createOrder`, after the item
loop has succeeded: prescription gating, order construction, entity
validation, and persistence of the order and its items. -/
def finishOrder (userId : String) (d : CreateOrderData) (newOrderId : String)
    (newItemIds : List String) (uid : String) (total : Rat) (reqRx : Bool)
    (pend : List PendingOrderItem) (db1 : DB) : Except AppError OrderSummary × DB :=
  let gate : Except AppError Unit :=
    if reqRx then
      match jsTruthyStr d.prescriptionId with
      | none => Except.error ⟨"Prescription is required for this order", 400⟩
      | some pid =>
        match db1.prescriptions.find? (fun pr =>
            pr.id == pid && pr.userId == userId && pr.status == PrescriptionStatus.approved) with
        | none => Except.error ⟨"Valid approved prescription is required", 400⟩
        | some _ => Except.ok ()
    else Except.ok ()
  match gate with
  | Except.error e => (Except.error e, db1)
  | Except.ok _ =>
    let order : Order :=
      { id := newOrderId, userId := uid, totalAmount := total,
        status := OrderStatus.pending, shippingAddress := d.shippingAddress,
        prescriptionId := jsTruthyStr d.prescriptionId, notes := jsTruthyStr d.notes }
    if validateOrderEntity order then
      let db2 := { db1 with orders := db1.orders ++ [order] }
      let db3 := { db2 with orderItems := db2.orderItems ++ mkOrderItems newItemIds newOrderId pend }
      (Except.ok ⟨order.id, order.totalAmount, order.status, order.shippingAddress⟩, db3)
    else
      (Except.error ⟨"Order validation failed", 400⟩, db1)

/-- The transactional body of `OrderService.createOrder`: the item loop
followed by prescription gating, validation and persistence. -/
def createOrderTxn (userId : String) (d : CreateOrderData) (newOrderId : String)
    (newItemIds : List String) (uid : String) (db0 : DB) :
    Except AppError OrderSummary × DB :=
  match processItems d.items 0 false [] db0 with
  | (Except.error e, dbe) => (Except.error e, dbe)
  | (Except.ok (total, reqRx, pend), db1) =>
    finishOrder userId d newOrderId newItemIds uid total reqRx pend db1

/-- `OrderService.createOrder` (src/src/services/AuthService.ts, OrderService
section): input checks, user lookup, then the transactional body.
`newOrderId` and `newItemIds` stand for the uuids the database generates. -/
def createOrder (userId : String) (d : CreateOrderData) (newOrderId : String)
    (newItemIds : List String) (db : DB) : Except AppError OrderSummary × DB :=
  if d.items.isEmpty then
    (Except.error ⟨"Order items are required", 400⟩, db)
  else if d.shippingAddress = "" then
    (Except.error ⟨"Shipping address is required", 400⟩, db)
  else
    match db.users.find? (fun u => u.id == userId) with
    | none => (Except.error ⟨"User not found", 404⟩, db)
    | some user =>
      transaction db (createOrderTxn userId d newOrderId newItemIds user.id)

/-- The stock-restoration loop of `OrderService.cancelOrder`: a product
that no longer exists is silently skipped. -/
def restoreStock : List OrderItem → DB → DB
  | [], db => db
  | item :: rest, db =>
    match findProduct db item.productId with
    | none => restoreStock rest db
    | some p => restoreStock rest (saveProduct db { p with stockQuantity := p.stockQuantity + item.quantity })

/-- The transactional body of `OrderService.cancelOrder`: fetch the
user's order with its items, require `PENDING`, restore stock, set
`CANCELLED`. -/
def cancelOrderTxn (userId : String) (orderId : String) (db0 : DB) :
    Except AppError Unit × DB :=
  match db0.orders.find? (fun o => o.id == orderId && o.userId == userId) with
  | none => (Except.error ⟨"Order not found", 404⟩, db0)
  | some order =>
    if order.status ≠ OrderStatus.pending then
      (Except.error ⟨"Only pending orders can be cancelled", 400⟩, db0)
    else
      let items := db0.orderItems.filter (fun it => it.orderId == order.id)
      let db1 := restoreStock items db0
      (Except.ok (), saveOrder db1 { order with status := OrderStatus.cancelled })

/-- `OrderService.cancelOrder`: the transactional cancellation. -/
def cancelOrder (userId : String) (orderId : String) (db : DB) :
    Except AppError Unit × DB :=
  transaction db (cancelOrderTxn userId orderId)

/-- `OrderService.getOrderById(userId, orderId)`: the user's order, or 404. -/
def getOrderById (userId : String) (orderId : String) (db : DB) :
    Except AppError Order :=
  match db.orders.find? (fun o => o.id == orderId && o.userId == userId) with
  | none => Except.error ⟨"Order not found", 404⟩
  | some o => Except.ok o

/-- `OrderService.updateOrderStatus` (admin): set the status, nothing else. -/
def updateOrderStatus (orderId : String) (status : OrderStatus) (db : DB) :
    Except AppError Unit × DB :=
  match db.orders.find? (fun o => o.id == orderId) with
  | none => (Except.error ⟨"Order not found", 404⟩, db)
  | some order => (Except.ok (), saveOrder db { order with status := status })

/-- `RefundData` (src/src/services/AuthService.ts, PaymentService section). -/
structure RefundData where
  orderId : String
  reason : String
  amount : Option Rat
deriving DecidableEq, Repr

/-- The refund result fields carrying order data (the random `refundId`
and the fixed success message are omitted). -/
structure RefundResult where
  success : Bool
  amount : Rat
deriving DecidableEq, Repr

/-- The amount `processRefund` refunds: the JS expression
`amount || order.totalAmount`, under which a supplied `0` is falsy. -/
def refundAmountOf (o : Order) (r : RefundData) : Rat :=
  match r.amount with
  | none => o.totalAmount
  | some a => if a = 0 then o.totalAmount else a

/-- `PaymentService.processRefund`: order must exist for this user and be
`APPROVED`/`SHIPPED`/`DELIVERED`; `amount || order.totalAmount` picks the
refund amount (a supplied `0` is falsy); the amount may not exceed the
order total; on success the order status becomes `CANCELLED`. -/
def processRefund (userId : String) (r : RefundData) (db : DB) :
    Except AppError RefundResult × DB :=
  match db.orders.find? (fun o => o.id == r.orderId && o.userId == userId) with
  | none => (Except.error ⟨"Order not found", 404⟩, db)
  | some order =>
    if order.status = OrderStatus.approved ∨ order.status = OrderStatus.shipped ∨
        order.status = OrderStatus.delivered then
      if order.totalAmount < refundAmountOf order r then
        (Except.error ⟨"Refund amount cannot exceed order total", 400⟩, db)
      else
        (Except.ok ⟨true, refundAmountOf order r⟩,
          saveOrder db { order with status := OrderStatus.cancelled })
    else
      (Except.error ⟨"Order is not eligible for refund", 400⟩, db)

/-- An HTTP response as far as the claims are concerned: status code,
success flag, message. -/
structure HttpResponse where
  status : Nat
  success : Bool
  message : String
deriving DecidableEq, Repr

/-- `JwtPayload` from src/types (the token claims). -/
structure JwtPayload where
  userId : String
  email : String
  role : UserRole
deriving DecidableEq, Repr

/-- `AuthUtils.extractTokenFromHeader`: requires a header starting with
the string Bearer plus a space (checked as equality of the first seven
characters) and strips those seven characters; an absent or empty header
is falsy and yields no token. -/
def extractTokenFromHeader (authHeader : Option String) : Option String :=
  match authHeader with
  | none => none
  | some h => if h.take 7 = "Bearer " then some (h.drop 7) else none

/-- The `authenticate` middleware (src/unnamed/part_002): 401 when no
token is present or token verification throws; otherwise the decoded
payload is attached to the request. `verify` abstracts `jwt.verify`. -/
def authenticate (verify : String → Option JwtPayload) (authHeader : Option String) :
    Except HttpResponse JwtPayload :=
  match extractTokenFromHeader authHeader with
  | none => Except.error ⟨401, false, "Access token is required"⟩
  | some tok =>
    match verify tok with
    | none => Except.error ⟨401, false, "Invalid or expired token"⟩
    | some payload => Except.ok payload

/-- The `authorize(...roles)` middleware: 403 when the authenticated
role is not among the allowed roles. -/
def authorize (roles : List UserRole) (payload : JwtPayload) :
    Except HttpResponse JwtPayload :=
  if roles.contains payload.role then Except.ok payload
  else Except.error ⟨403, false, "Insufficient permissions"⟩

/-- The orders router (src/unnamed/part_001): `router.use(authenticate)`
then `router.use(authorize(UserRole.USER))` in front of every order
route; `handler` stands for the dispatched controller + service. -/
def ordersRouter (verify : String → Option JwtPayload) (authHeader : Option String)
    (handler : JwtPayload → DB → HttpResponse × DB) (db : DB) : HttpResponse × DB :=
  match authenticate verify authHeader with
  | Except.error resp => (resp, db)
  | Except.ok payload =>
    match authorize [UserRole.user] payload with
    | Except.error resp => (resp, db)
    | Except.ok p => handler p db

/-- `OrderController.getOrderById` (src/src/controllers/OrderController.ts):
the service is invoked as `getOrderById(req.params.id, req.user.userId)`,
so the path parameter lands in the service's `userId` position and the
authenticated user id in its `orderId` position. -/
def controllerGetOrderById (paramsId : String) (currentUserId : String) (db : DB) :
    HttpResponse :=
  match getOrderById paramsId currentUserId db with
  | Except.error e => ⟨e.statusCode, false, e.message⟩
  | Except.ok _ => ⟨200, true, "Order retrieved successfully"⟩

/-- `UploadPrescriptionData` (src/src/services/PrescriptionService.ts). -/
structure UploadPrescriptionData where
  originalName : String
  fileName : String
  fileSize : Int
  mimeType : String
  filePath : String
deriving DecidableEq, Repr

/-- The allowed prescription mime types. -/
def allowedMimeTypes : List String :=
  ["image/jpeg", "image/png", "image/jpg", "application/pdf"]

/-- `validate(prescription)` (class-validator): the decorated columns set
by `uploadPrescription` are `fileName` and `filePath`, both `@IsNotEmpty()`. -/
def validatePrescriptionEntity (p : Prescription) : Bool :=
  !p.fileName.isEmpty && !p.filePath.isEmpty

/-- `PrescriptionService.uploadPrescription`: user check, JS-falsiness
check on every file field, mime-type and 10MB size checks, then a new
`PENDING` prescription row is validated and saved. `newId` stands for
the database-generated uuid. -/
def uploadPrescription (userId : String) (fileData : UploadPrescriptionData)
    (newId : String) (db : DB) : Except AppError Prescription × DB :=
  match db.users.find? (fun u => u.id == userId) with
  | none => (Except.error ⟨"User not found", 404⟩, db)
  | some _ =>
    if fileData.originalName = "" || fileData.fileName = "" || fileData.fileSize = 0 ||
        fileData.mimeType = "" || fileData.filePath = "" then
      (Except.error ⟨"All file data is required", 400⟩, db)
    else if !(allowedMimeTypes.contains fileData.mimeType) then
      (Except.error ⟨"Invalid file type. Only JPEG, PNG, and PDF files are allowed", 400⟩, db)
    else if fileData.fileSize > 10 * 1024 * 1024 then
      (Except.error ⟨"File size too large. Maximum 10MB allowed", 400⟩, db)
    else
      let p : Prescription :=
        { id := newId, userId := userId, fileName := fileData.fileName,
          filePath := fileData.filePath, originalName := fileData.originalName,
          fileSize := fileData.fileSize, mimeType := fileData.mimeType,
          status := PrescriptionStatus.pending, adminNotes := none, approvedBy := none }
      if validatePrescriptionEntity p then
        (Except.ok p, { db with prescriptions := db.prescriptions ++ [p] })
      else
        (Except.error ⟨"Validation failed", 400⟩, db)

/-- `PrescriptionService.reviewPrescription` (admin): target status must
be `APPROVED` or `REJECTED`, the prescription must exist and still be
`PENDING`; notes and reviewer are recorded when (JS-)truthy. -/
def reviewPrescription (prescriptionId : String) (status : PrescriptionStatus)
    (adminNotes : Option String) (adminId : Option String) (db : DB) :
    Except AppError Unit × DB :=
  if status ≠ PrescriptionStatus.approved ∧ status ≠ PrescriptionStatus.rejected then
    (Except.error ⟨"Valid status (approved/rejected) is required", 400⟩, db)
  else
    match db.prescriptions.find? (fun p => p.id == prescriptionId) with
    | none => (Except.error ⟨"Prescription not found", 404⟩, db)
    | some p =>
      if p.status ≠ PrescriptionStatus.pending then
        (Except.error ⟨"Prescription has already been reviewed", 400⟩, db)
      else
        let p1 : Prescription :=
          { p with
            status := status,
            adminNotes := match jsTruthyStr adminNotes with
              | none => p.adminNotes
              | some n => some n,
            approvedBy := match jsTruthyStr adminId with
              | none => p.approvedBy
              | some a => some a }
        (Except.ok (), savePrescription db p1)

/-- `PrescriptionService.deletePrescription`: the user's prescription
must exist and still be `PENDING`; `remove` deletes the row. -/
def deletePrescription (userId : String) (prescriptionId : String) (db : DB) :
    Except AppError Unit × DB :=
  match db.prescriptions.find? (fun p => p.id == prescriptionId && p.userId == userId) with
  | none => (Except.error ⟨"Prescription not found", 404⟩, db)
  | some p =>
    if p.status ≠ PrescriptionStatus.pending then
      (Except.error ⟨"Only pending prescriptions can be deleted", 400⟩, db)
    else
      (Except.ok (), { db with prescriptions := db.prescriptions.filter (fun q => q.id != p.id) })

/-- An order-service operation, for stating multi-step invariants over
arbitrary operation sequences. -/
inductive OrderOp where
  | create (userId : String) (d : CreateOrderData) (newOrderId : String) (newItemIds : List String)
  | cancel (userId : String) (orderId : String)
deriving Repr

/-- Apply one operation; a thrown error leaves the state as the
operation left it (for both operations: rolled back / untouched). -/
def applyOrderOp (db : DB) : OrderOp → DB
  | OrderOp.create u d oid iids => (createOrder u d oid iids db).2
  | OrderOp.cancel u oid => (cancelOrder u oid db).2

/-- Apply a sequence of order operations. -/
def applyOrderOps (db : DB) (ops : List OrderOp) : DB :=
  ops.foldl applyOrderOp db

/-- Every product row has non-negative stock. -/
def stocksNonneg (db : DB) : Prop :=
  ∀ p ∈ db.products, 0 ≤ p.stockQuantity

/-- Every persisted order item has non-negative quantity. -/
def itemQtysNonneg (db : DB) : Prop :=
  ∀ it ∈ db.orderItems, 0 ≤ it.quantity

/-- An operation supplies only non-negative quantities. -/
def opQtysNonneg : OrderOp → Prop
  | OrderOp.create _ d _ _ => ∀ item ∈ d.items, 0 ≤ item.quantity
  | OrderOp.cancel _ _ => True

instance : DecidablePred stocksNonneg := fun db =>
  inferInstanceAs (Decidable (∀ p ∈ db.products, 0 ≤ p.stockQuantity))

instance : DecidablePred itemQtysNonneg := fun db =>
  inferInstanceAs (Decidable (∀ it ∈ db.orderItems, 0 ≤ it.quantity))

instance (op : OrderOp) : Decidable (opQtysNonneg op) :=
  match op with
  | OrderOp.create _ d _ _ => inferInstanceAs (Decidable (∀ item ∈ d.items, 0 ≤ item.quantity))
  | OrderOp.cancel _ _ => inferInstanceAs (Decidable True)

/-- Forget the stock column of a product row: the view under which
`createOrder` and `cancelOrder` must leave every product unchanged. -/
def eraseStock (p : Product) : Product :=
  { p with stockQuantity := 0 }

/-- The stock-erased view of the product a lookup of `pid` returns. -/
def productView (db : DB) (pid : String) : Option Product :=
  (findProduct db pid).map eraseStock

/-- The stock the product table currently records for `pid`. -/
def stockOf (db : DB) (pid : String) : Option Int :=
  (findProduct db pid).map Product.stockQuantity

/-- The current catalog price of `pid` (zero when absent; used only where
presence is already known). -/
def priceOf (db : DB) (pid : String) : Rat :=
  match findProduct db pid with
  | some p => p.price
  | none => 0

/-- Whether `pid` currently resolves to a prescription-required product. -/
def productNeedsRx (db : DB) (pid : String) : Bool :=
  match findProduct db pid with
  | some p => p.requiresPrescription
  | none => false

/-- Current price times requested quantity for one cart line. -/
def cartPrice (db : DB) (it : CartItem) : Rat :=
  priceOf db it.productId * (it.quantity : Rat)

/-- The order total a cart should produce at current prices. -/
def cartTotal (db : DB) (items : List CartItem) : Rat :=
  (items.map (cartPrice db)).sum

/-- The order item the loop builds for one cart line, at current prices. -/
def pendingOf (db : DB) (it : CartItem) : PendingOrderItem :=
  ⟨it.productId, it.quantity, priceOf db it.productId, cartPrice db it⟩

/-- Total quantity a cart requests for one product id. -/
def cartQty (items : List CartItem) (pid : String) : Int :=
  ((items.filter (fun i => i.productId == pid)).map (fun i => i.quantity)).sum

/-- Total quantity a list of order items records for one product id. -/
def itemsQty (items : List OrderItem) (pid : String) : Int :=
  ((items.filter (fun i => i.productId == pid)).map (fun i => i.quantity)).sum

/-- Total quantity the stored line items of order `oid` record for `pid`. -/
def orderItemsQty (db : DB) (oid : String) (pid : String) : Int :=
  itemsQty (db.orderItems.filter (fun it => it.orderId == oid)) pid

/-- The approved, user-owned prescription the order's prescription id
resolves to, exactly as `createOrder` looks it up (JS-falsy id counts as
absent). -/
def approvedRxFor (db : DB) (userId : String) (pid? : Option String) : Option Prescription :=
  match jsTruthyStr pid? with
  | none => none
  | some pid =>
    db.prescriptions.find? (fun pr =>
      pr.id == pid && pr.userId == userId && pr.status == PrescriptionStatus.approved)

/-- Any state-changing service operation of the system, for stating
invariants that quantify over all operations. -/
inductive SysOp where
  | upload (userId : String) (fileData : UploadPrescriptionData) (newId : String)
  | review (prescriptionId : String) (status : PrescriptionStatus) (adminNotes adminId : Option String)
  | removeRx (userId : String) (prescriptionId : String)
  | create (userId : String) (d : CreateOrderData) (newOrderId : String) (newItemIds : List String)
  | cancel (userId : String) (orderId : String)
  | refund (userId : String) (r : RefundData)
  | setStatus (orderId : String) (status : OrderStatus)
deriving Repr

/-- Apply one system operation, keeping whatever state it leaves behind. -/
def applySysOp (db : DB) : SysOp → DB
  | SysOp.upload u fd nid => (uploadPrescription u fd nid db).2
  | SysOp.review pid st notes aid => (reviewPrescription pid st notes aid db).2
  | SysOp.removeRx u pid => (deletePrescription u pid db).2
  | SysOp.create u d oid iids => (createOrder u d oid iids db).2
  | SysOp.cancel u oid => (cancelOrder u oid db).2
  | SysOp.refund u r => (processRefund u r db).2
  | SysOp.setStatus oid st => (updateOrderStatus oid st db).2

/-- Prescription primary keys are unique, as the database guarantees. -/
def rxIdsUnique (db : DB) : Prop :=
  db.prescriptions.Pairwise (fun a b => a.id ≠ b.id)

instance : DecidablePred rxIdsUnique := fun db =>
  inferInstanceAs
    (Decidable (db.prescriptions.Pairwise (fun a b : Prescription => a.id ≠ b.id)))

/-- A sample user for concrete evaluations. -/
def sampleUser : User :=
  ⟨"u1", "u1@example.com", UserRole.user⟩

/-- A sample catalog product with 5 units of stock, price 1. -/
def sampleP1 : Product :=
  ⟨"p1", "Bandage", "", 1, 5, "supplies", none, false, ProductStatus.active, "ph1"⟩

/-- A second sample product with 20 units of stock, price 1. -/
def sampleP2 : Product :=
  ⟨"p2", "Gauze", "", 1, 20, "supplies", none, false, ProductStatus.active, "ph1"⟩

/-- Initial state for the stock-invariant refutation: one user, two
products, nothing else. -/
def negDb : DB :=
  ⟨[sampleUser], [sampleP1, sampleP2], [], [], []⟩

/-- An operation sequence with an unvalidated negative quantity: order
one, order two, then cancel order one. -/
def negOps : List OrderOp :=
  [OrderOp.create "u1" ⟨[⟨"p1", -10⟩, ⟨"p2", 20⟩], "addr", none, none⟩ "o1" ["i1", "i2"],
   OrderOp.create "u1" ⟨[⟨"p1", 15⟩], "addr", none, none⟩ "o2" ["i3"],
   OrderOp.cancel "u1" "o1"]

/-- A state holding an APPROVED order with one line item of quantity 2,
for exercising `processRefund` and `updateOrderStatus`. -/
def refundDb : DB :=
  ⟨[sampleUser],
   [{ sampleP1 with stockQuantity := 10 }],
   [⟨"o1", "u1", 50, OrderStatus.approved, "addr", none, none⟩],
   [⟨"i1", "o1", "p1", 2, 25, 50⟩],
   []⟩

/-- A state with a user and one in-stock product, for exercising the
create-then-fetch round trip. -/
def rtDb : DB :=
  ⟨[sampleUser], [sampleP1], [], [], []⟩

/-- The cart used in the round-trip scenario. -/
def rtOrderData : CreateOrderData :=
  ⟨[⟨"p1", 2⟩], "addr", none, none⟩

/-- A token-verification oracle for concrete middleware runs: one valid
USER token and one valid ADMIN token. -/
def sampleVerify : String → Option JwtPayload :=
  fun t =>
    if t = "usertoken" then some ⟨"u1", "u1@example.com", UserRole.user⟩
    else if t = "admintoken" then some ⟨"a1", "a1@example.com", UserRole.admin⟩
    else none

/-- A handler that marks execution by returning 200 and clearing the
product table, so that non-execution is observable in the state. -/
def sampleHandler : JwtPayload → DB → HttpResponse × DB :=
  fun _ db => (⟨200, true, "ok"⟩, { db with products := [] })

/-- A pending prescription owned by the sample user. -/
def samplePendingRx : Prescription :=
  ⟨"rx1", "u1", "f.pdf", "/up/f.pdf", "f.pdf", 100, "application/pdf",
   PrescriptionStatus.pending, none, none⟩

/-- An approved prescription owned by the sample user. -/
def sampleApprovedRx : Prescription :=
  ⟨"rx2", "u1", "g.pdf", "/up/g.pdf", "g.pdf", 100, "application/pdf",
   PrescriptionStatus.approved, none, none⟩

/-- A state for the prescription state-machine scenarios. -/
def rxDb : DB :=
  ⟨[sampleUser], [], [], [], [samplePendingRx, sampleApprovedRx]⟩

/-- A prescription-required product with stock. -/
def rxProduct : Product :=
  ⟨"p3", "Antibiotic", "", 7, 4, "medicine", none, true, ProductStatus.active, "ph1"⟩

/-- A state for the prescription-gating scenarios: one user, one
prescription-required product, one approved prescription. -/
def gateDb : DB :=
  ⟨[sampleUser], [rxProduct, sampleP1], [], [], [sampleApprovedRx]⟩

/-- `refundDb` with the order still PENDING, so it can be cancelled. -/
def pendingOrderDb : DB :=
  ⟨[sampleUser],
   [{ sampleP1 with stockQuantity := 10 }],
   [⟨"o1", "u1", 50, OrderStatus.pending, "addr", none, none⟩],
   [⟨"i1", "o1", "p1", 2, 25, 50⟩],
   []⟩

/-- The state `rtDb` reaches after the round-trip order is created. -/
def rtDbAfter : DB :=
  ⟨[sampleUser],
   [{ sampleP1 with stockQuantity := 3 }],
   [⟨"order-1", "u1", 2, OrderStatus.pending, "addr", none, none⟩],
   [⟨"i1", "order-1", "p1", 2, 1, 2⟩],
   []⟩

/-- A valid prescription upload payload. -/
def rxUpload : UploadPrescriptionData :=
  ⟨"a.pdf", "f.pdf", 100, "application/pdf", "/up/f.pdf"⟩

/-- The prescription row the sample upload creates. -/
def rxNew : Prescription :=
  ⟨"rx9", "u1", "f.pdf", "/up/f.pdf", "a.pdf", 100, "application/pdf",
   PrescriptionStatus.pending, none, none⟩

/-- The state `rxDb` reaches after the sample upload. -/
def rxDbUploaded : DB :=
  ⟨[sampleUser], [], [], [], [samplePendingRx, sampleApprovedRx, rxNew]⟩

/-- The state `rxDb` reaches after rx1 is approved. -/
def rxDbReviewed : DB :=
  ⟨[sampleUser], [], [], [],
   [{ samplePendingRx with status := PrescriptionStatus.approved }, sampleApprovedRx]⟩

/-- The state `rxDb` reaches after rx1 is deleted. -/
def rxDbDeleted : DB :=
  ⟨[sampleUser], [], [], [], [sampleApprovedRx]⟩

/-- The state `gateDb` reaches after creating the prescription-gated
order o9. -/
def gateDbAfter : DB :=
  ⟨[sampleUser],
   [{ rxProduct with stockQuantity := 3 }, sampleP1],
   [⟨"o9", "u1", 7, OrderStatus.pending, "addr", some "rx2", none⟩],
   [⟨"i9", "o9", "p3", 1, 7, 7⟩],
   [sampleApprovedRx]⟩

/-- The intermediate state of `gateDb` after the item loop for one unit
of the prescription-required product p3. -/
def gateDb1 : DB :=
  ⟨[sampleUser], [{ rxProduct with stockQuantity := 3 }, sampleP1], [], [], [sampleApprovedRx]⟩

/-- The intermediate state of `gateDb` after the item loop for two units
of the over-the-counter product p1. -/
def gateDb1c : DB :=
  ⟨[sampleUser], [rxProduct, { sampleP1 with stockQuantity := 3 }], [], [], [sampleApprovedRx]⟩

/-- The state `refundDb` reaches after a successful refund: order
CANCELLED, product table untouched. -/
def refundCancelledDb : DB :=
  ⟨[sampleUser],
   [{ sampleP1 with stockQuantity := 10 }],
   [⟨"o1", "u1", 50, OrderStatus.cancelled, "addr", none, none⟩],
   [⟨"i1", "o1", "p1", 2, 25, 50⟩],
   []⟩

/-- The state `pendingOrderDb` reaches after the order is cancelled:
order CANCELLED, stock restored from 10 to 12. -/
def cancelRestoredDb : DB :=
  ⟨[sampleUser],
   [{ sampleP1 with stockQuantity := 12 }],
   [⟨"o1", "u1", 50, OrderStatus.cancelled, "addr", none, none⟩],
   [⟨"i1", "o1", "p1", 2, 25, 50⟩],
   []⟩

/-- An operation sequence whose quantities are all non-negative. -/
def posOps : List OrderOp :=
  [OrderOp.create "u1" ⟨[⟨"p1", 2⟩], "addr", none, none⟩ "o1" ["i1"],
   OrderOp.cancel "u1" "o1"]

theorem findProduct_eq (db : DB) (pid : String) :
    findProduct db pid = db.products.find? (fun q => q.id == pid) := rfl

theorem findProduct_id (db : DB) (pid : String) (p : Product)
    (h : findProduct db pid = some p) : p.id = pid := by
  rw [findProduct_eq] at h
  have hb := List.find?_some h
  simpa using hb

theorem findProduct_mem (db : DB) (pid : String) (p : Product)
    (h : findProduct db pid = some p) : p ∈ db.products := by
  rw [findProduct_eq] at h
  exact List.mem_of_find?_eq_some h

theorem find?_map_replace (l : List Product) (p' : Product) (pid : String) :
    (l.map (fun q => if q.id == p'.id then p' else q)).find? (fun q => q.id == pid) =
      (l.find? (fun q => q.id == pid)).map (fun q => if q.id == p'.id then p' else q) := by
  induction l with
  | nil => rfl
  | cons a l ih =>
    have hid : ((if a.id == p'.id then p' else a).id == pid) = (a.id == pid) := by
      by_cases hrep : (a.id == p'.id) = true
      · rw [if_pos hrep, ← eq_of_beq hrep]
      · rw [if_neg hrep]
    simp only [List.map_cons, List.find?_cons]
    rw [hid]
    cases hp : (a.id == pid) with
    | false => simpa using ih
    | true => rfl

theorem saveProduct_found (db : DB) (p p' : Product) (h : findProduct db p'.id = some p) :
    (saveProduct db p').products = db.products.map (fun q => if q.id == p'.id then p' else q) := by
  have hm : p ∈ db.products := findProduct_mem db _ p h
  have hq : p.id = p'.id := findProduct_id db _ p h
  have hany : db.products.any (fun q => q.id == p'.id) = true :=
    List.any_eq_true.mpr ⟨p, hm, by simp [hq]⟩
  unfold saveProduct
  simp [hany]

theorem saveProduct_orders (db : DB) (p : Product) :
    (saveProduct db p).orders = db.orders := by
  unfold saveProduct; split <;> rfl

theorem saveProduct_orderItems (db : DB) (p : Product) :
    (saveProduct db p).orderItems = db.orderItems := by
  unfold saveProduct; split <;> rfl

theorem saveProduct_prescriptions (db : DB) (p : Product) :
    (saveProduct db p).prescriptions = db.prescriptions := by
  unfold saveProduct; split <;> rfl

theorem saveProduct_users (db : DB) (p : Product) :
    (saveProduct db p).users = db.users := by
  unfold saveProduct; split <;> rfl

theorem saveOrder_products (db : DB) (o : Order) :
    (saveOrder db o).products = db.products := by
  unfold saveOrder; split <;> rfl

theorem saveOrder_orderItems (db : DB) (o : Order) :
    (saveOrder db o).orderItems = db.orderItems := by
  unfold saveOrder; split <;> rfl

theorem saveOrder_prescriptions (db : DB) (o : Order) :
    (saveOrder db o).prescriptions = db.prescriptions := by
  unfold saveOrder; split <;> rfl

theorem saveOrder_users (db : DB) (o : Order) :
    (saveOrder db o).users = db.users := by
  unfold saveOrder; split <;> rfl

theorem stockOf_saveProduct (db : DB) (p p' : Product)
    (h : findProduct db p'.id = some p) (pid : String) :
    stockOf (saveProduct db p') pid =
      if pid = p'.id then some p'.stockQuantity else stockOf db pid := by
  have hrw := saveProduct_found db p p' h
  unfold stockOf
  rw [findProduct_eq, findProduct_eq, hrw, find?_map_replace]
  by_cases hpid : pid = p'.id
  · rw [hpid]
    rw [findProduct_eq] at h
    rw [h]
    have hq : p.id = p'.id := by have hb := List.find?_some h; simpa using hb
    simp [hq]
  · cases hf : db.products.find? (fun q => q.id == pid) with
    | none => simp [hpid]
    | some q =>
      have hqid : q.id = pid := by have hb := List.find?_some hf; simpa using hb
      have hqne : ¬(q.id = p'.id) := fun hc => hpid (hqid.symm.trans hc)
      simp [hpid, hqne]

theorem productView_saveProduct (db : DB) (p p' : Product)
    (h : findProduct db p'.id = some p) (hsame : eraseStock p' = eraseStock p) (pid : String) :
    productView (saveProduct db p') pid = productView db pid := by
  have hrw := saveProduct_found db p p' h
  unfold productView
  rw [findProduct_eq, findProduct_eq, hrw, find?_map_replace]
  by_cases hpid : pid = p'.id
  · rw [hpid]
    rw [findProduct_eq] at h
    rw [h]
    have hq : p.id = p'.id := by have hb := List.find?_some h; simpa using hb
    simp [hq, hsame]
  · cases hf : db.products.find? (fun q => q.id == pid) with
    | none => simp
    | some q =>
      have hqid : q.id = pid := by have hb := List.find?_some hf; simpa using hb
      have hqne : ¬(q.id = p'.id) := fun hc => hpid (hqid.symm.trans hc)
      simp [hqne]

theorem priceOf_eq_of_productView (db1 db2 : DB) (pid : String)
    (h : productView db1 pid = productView db2 pid) : priceOf db1 pid = priceOf db2 pid := by
  unfold productView at h
  unfold priceOf
  cases h1 : findProduct db1 pid with
  | none =>
    cases h2 : findProduct db2 pid with
    | none => rfl
    | some b => rw [h1, h2] at h; simp at h
  | some a =>
    cases h2 : findProduct db2 pid with
    | none => rw [h1, h2] at h; simp at h
    | some b =>
      rw [h1, h2] at h
      simp only [Option.map_some'] at h
      have := congrArg Product.price (Option.some.inj h)
      simpa [eraseStock] using this

theorem productNeedsRx_eq_of_productView (db1 db2 : DB) (pid : String)
    (h : productView db1 pid = productView db2 pid) :
    productNeedsRx db1 pid = productNeedsRx db2 pid := by
  unfold productView at h
  unfold productNeedsRx
  cases h1 : findProduct db1 pid with
  | none =>
    cases h2 : findProduct db2 pid with
    | none => rfl
    | some b => rw [h1, h2] at h; simp at h
  | some a =>
    cases h2 : findProduct db2 pid with
    | none => rw [h1, h2] at h; simp at h
    | some b =>
      rw [h1, h2] at h
      simp only [Option.map_some'] at h
      have := congrArg Product.requiresPrescription (Option.some.inj h)
      simpa [eraseStock] using this

theorem processItems_ok (items : List CartItem) (t : Rat) (f : Bool)
    (acc : List PendingOrderItem) (db : DB) (t' : Rat) (f' : Bool)
    (pend : List PendingOrderItem) (db' : DB)
    (h : processItems items t f acc db = (Except.ok (t', f', pend), db')) :
    (∀ pid, productView db' pid = productView db pid) ∧
    db'.orders = db.orders ∧ db'.orderItems = db.orderItems ∧
    db'.prescriptions = db.prescriptions ∧ db'.users = db.users ∧
    t' = t + cartTotal db items ∧
    f' = (f || items.any (fun it => productNeedsRx db it.productId)) ∧
    pend = acc ++ items.map (pendingOf db) ∧
    (∀ pid, stockOf db' pid = (stockOf db pid).map (fun s => s - cartQty items pid)) := by
  induction items generalizing t f acc db with
  | nil =>
    simp only [processItems, Prod.mk.injEq, Except.ok.injEq] at h
    obtain ⟨⟨ht, hf, hpend⟩, hdb⟩ := h
    subst ht; subst hf; subst hpend; subst hdb
    refine ⟨fun _ => rfl, rfl, rfl, rfl, rfl, ?_, ?_, ?_, ?_⟩
    · simp [cartTotal]
    · simp
    · simp
    · intro pid
      cases stockOf db pid <;> simp [cartQty]
  | cons item rest ih =>
    simp only [processItems] at h
    cases hfind : findProduct db item.productId with
    | none => rw [hfind] at h; simp at h
    | some product =>
      simp only [hfind] at h
      by_cases hstock : product.stockQuantity < item.quantity
      · rw [if_pos hstock] at h; simp at h
      · rw [if_neg hstock] at h
        have hpid : product.id = item.productId := findProduct_id db _ product hfind
        have hfind' : findProduct db product.id = some product := by
          rw [hpid]; exact hfind
        obtain ⟨hview, hord, hoit, hrxs, husers, ht, hf, hpend, hstk⟩ := ih _ _ _ _ h
        have hview1 : ∀ pid,
            productView (saveProduct db
              { product with stockQuantity := product.stockQuantity - item.quantity }) pid =
              productView db pid :=
          fun pid => productView_saveProduct db product
            { product with stockQuantity := product.stockQuantity - item.quantity } hfind' rfl pid
        have hstock1 : ∀ pid,
            stockOf (saveProduct db
              { product with stockQuantity := product.stockQuantity - item.quantity }) pid =
              if pid = product.id then some (product.stockQuantity - item.quantity)
              else stockOf db pid :=
          fun pid => stockOf_saveProduct db product
            { product with stockQuantity := product.stockQuantity - item.quantity } hfind' pid
        have hcp : cartPrice (saveProduct db
            { product with stockQuantity := product.stockQuantity - item.quantity }) =
            cartPrice db :=
          funext (fun it => by
            unfold cartPrice
            rw [priceOf_eq_of_productView _ db _ (hview1 _)])
        have hct : cartTotal (saveProduct db
            { product with stockQuantity := product.stockQuantity - item.quantity }) rest =
            cartTotal db rest := by
          unfold cartTotal; rw [hcp]
        have hpo : pendingOf (saveProduct db
            { product with stockQuantity := product.stockQuantity - item.quantity }) =
            pendingOf db :=
          funext (fun it => by
            unfold pendingOf
            rw [priceOf_eq_of_productView _ db _ (hview1 _), hcp])
        have hrxf : (fun it : CartItem => productNeedsRx (saveProduct db
            { product with stockQuantity := product.stockQuantity - item.quantity }) it.productId) =
            (fun it : CartItem => productNeedsRx db it.productId) :=
          funext (fun it => productNeedsRx_eq_of_productView _ db _ (hview1 _))
        refine ⟨?_, ?_, ?_, ?_, ?_, ?_, ?_, ?_, ?_⟩
        · exact fun pid => (hview pid).trans (hview1 pid)
        · exact hord.trans (saveProduct_orders db _)
        · exact hoit.trans (saveProduct_orderItems db _)
        · exact hrxs.trans (saveProduct_prescriptions db _)
        · exact husers.trans (saveProduct_users db _)
        · rw [ht, hct]
          have : cartPrice db item = product.price * (item.quantity : Rat) := by
            unfold cartPrice priceOf
            rw [hfind]
          simp [cartTotal, this]
          ring
        · rw [hf, hrxf]
          have : productNeedsRx db item.productId = product.requiresPrescription := by
            unfold productNeedsRx
            rw [hfind]
          simp [this, Bool.or_assoc]
        · rw [hpend, hpo]
          have : pendingOf db item =
              (⟨product.id, item.quantity, product.price,
                product.price * (item.quantity : Rat)⟩ : PendingOrderItem) := by
            unfold pendingOf cartPrice priceOf
            rw [hfind, hpid]
          simp [this]
        · intro pid
          rw [hstk pid, hstock1 pid]
          by_cases hp : pid = product.id
          · have hpi : item.productId = pid := by rw [hp, hpid]
            have hdb : stockOf db pid = some product.stockQuantity := by
              unfold stockOf
              rw [← hpi, hfind]
              rfl
            have hq : cartQty (item :: rest) pid = item.quantity + cartQty rest pid := by
              simp [cartQty, hpi]
            rw [if_pos hp, hdb, hq]
            simp [sub_sub]
          · have hpi : ¬(item.productId = pid) := fun hc => hp (by rw [← hc, hpid])
            have hq : cartQty (item :: rest) pid = cartQty rest pid := by
              simp [cartQty, hpi]
            rw [if_neg hp, hq]

theorem stocksNonneg_saveProduct (db : DB) (p' : Product) (h : stocksNonneg db)
    (hp : 0 ≤ p'.stockQuantity) : stocksNonneg (saveProduct db p') := by
  unfold stocksNonneg saveProduct at *
  split
  · intro q hq
    simp only [List.mem_map] at hq
    obtain ⟨r, hr, hq⟩ := hq
    by_cases hid : r.id == p'.id
    · rw [if_pos hid] at hq; exact hq ▸ hp
    · rw [if_neg hid] at hq; exact hq ▸ h r hr
  · intro q hq
    simp only [List.mem_append, List.mem_singleton] at hq
    cases hq with
    | inl hq => exact h q hq
    | inr hq => exact hq ▸ hp

theorem transaction_fst {α : Type} (db : DB) (body : DB → Except AppError α × DB) :
    (transaction db body).1 = (body db).1 := by
  unfold transaction
  cases hb : body db with
  | mk r d1 => cases r <;> rfl

theorem transaction_ok {α : Type} (db : DB) (body : DB → Except AppError α × DB)
    (a : α) (db' : DB) (h : transaction db body = (Except.ok a, db')) :
    body db = (Except.ok a, db') := by
  unfold transaction at h
  cases hb : body db with
  | mk r d1 =>
    rw [hb] at h
    cases r with
    | ok x =>
      simp only [Prod.mk.injEq, Except.ok.injEq] at h
      rw [h.1, h.2]
    | error e => simp at h

theorem transaction_error {α : Type} (db : DB) (body : DB → Except AppError α × DB)
    (e : AppError) (db' : DB) (h : transaction db body = (Except.error e, db')) :
    db' = db := by
  unfold transaction at h
  cases hb : body db with
  | mk r d1 =>
    rw [hb] at h
    cases r with
    | ok x => simp at h
    | error e1 =>
      simp only [Prod.mk.injEq] at h
      exact h.2.symm

theorem restoreStock_orders (items : List OrderItem) (db : DB) :
    (restoreStock items db).orders = db.orders := by
  induction items generalizing db with
  | nil => rfl
  | cons item rest ih =>
    simp only [restoreStock]
    cases hfind : findProduct db item.productId with
    | none => exact ih db
    | some p => exact (ih _).trans (saveProduct_orders db _)

theorem restoreStock_orderItems (items : List OrderItem) (db : DB) :
    (restoreStock items db).orderItems = db.orderItems := by
  induction items generalizing db with
  | nil => rfl
  | cons item rest ih =>
    simp only [restoreStock]
    cases hfind : findProduct db item.productId with
    | none => exact ih db
    | some p => exact (ih _).trans (saveProduct_orderItems db _)

theorem restoreStock_prescriptions (items : List OrderItem) (db : DB) :
    (restoreStock items db).prescriptions = db.prescriptions := by
  induction items generalizing db with
  | nil => rfl
  | cons item rest ih =>
    simp only [restoreStock]
    cases hfind : findProduct db item.productId with
    | none => exact ih db
    | some p => exact (ih _).trans (saveProduct_prescriptions db _)

theorem restoreStock_users (items : List OrderItem) (db : DB) :
    (restoreStock items db).users = db.users := by
  induction items generalizing db with
  | nil => rfl
  | cons item rest ih =>
    simp only [restoreStock]
    cases hfind : findProduct db item.productId with
    | none => exact ih db
    | some p => exact (ih _).trans (saveProduct_users db _)

theorem restoreStock_stockOf (items : List OrderItem) (db : DB) (pid : String) :
    stockOf (restoreStock items db) pid =
      (stockOf db pid).map (fun s => s + itemsQty items pid) := by
  induction items generalizing db with
  | nil =>
    simp only [restoreStock]
    cases stockOf db pid <;> simp [itemsQty]
  | cons item rest ih =>
    simp only [restoreStock]
    cases hfind : findProduct db item.productId with
    | none =>
      rw [ih db]
      by_cases hp : item.productId = pid
      · have hnone : stockOf db pid = none := by
          unfold stockOf
          rw [← hp, hfind]
          rfl
        rw [hnone]
        simp
      · have hq : itemsQty (item :: rest) pid = itemsQty rest pid := by
          simp [itemsQty, hp]
        rw [hq]
    | some p =>
      rw [ih _]
      have hpid2 : p.id = item.productId := findProduct_id db _ p hfind
      have hfind' : findProduct db p.id = some p := by rw [hpid2]; exact hfind
      rw [stockOf_saveProduct db p { p with stockQuantity := p.stockQuantity + item.quantity } hfind' pid]
      by_cases hp : pid = p.id
      · rw [if_pos hp]
        have hsome : stockOf db pid = some p.stockQuantity := by
          unfold stockOf
          rw [hp, hfind']
          rfl
        rw [hsome]
        have hip : item.productId = pid := hpid2.symm.trans hp.symm
        have hq : itemsQty (item :: rest) pid = item.quantity + itemsQty rest pid := by
          simp [itemsQty, hip]
        rw [hq]
        simp [add_assoc]
      · rw [if_neg hp]
        have hip : ¬(item.productId = pid) := fun hc => hp ((hpid2.trans hc).symm)
        have hq : itemsQty (item :: rest) pid = itemsQty rest pid := by
          simp [itemsQty, hip]
        rw [hq]

theorem restoreStock_stocksNonneg (items : List OrderItem) (db : DB)
    (h0 : stocksNonneg db) (hq : ∀ it ∈ items, 0 ≤ it.quantity) :
    stocksNonneg (restoreStock items db) := by
  induction items generalizing db with
  | nil => exact h0
  | cons item rest ih =>
    simp only [restoreStock]
    cases hfind : findProduct db item.productId with
    | none => exact ih db h0 (fun it hit => hq it (List.mem_cons_of_mem _ hit))
    | some p =>
      refine ih _ ?_ (fun it hit => hq it (List.mem_cons_of_mem _ hit))
      refine stocksNonneg_saveProduct db _ h0 ?_
      have h1 : 0 ≤ p.stockQuantity := h0 p (findProduct_mem db _ p hfind)
      have h2 : 0 ≤ item.quantity := hq item (List.mem_cons_self _ _)
      show 0 ≤ p.stockQuantity + item.quantity
      omega

theorem processItems_stocksNonneg (items : List CartItem) (t : Rat) (f : Bool)
    (acc : List PendingOrderItem) (db : DB) (t' : Rat) (f' : Bool)
    (pend : List PendingOrderItem) (db' : DB)
    (h : processItems items t f acc db = (Except.ok (t', f', pend), db'))
    (h0 : stocksNonneg db) : stocksNonneg db' := by
  induction items generalizing t f acc db with
  | nil =>
    simp only [processItems, Prod.mk.injEq, Except.ok.injEq] at h
    obtain ⟨_, hdb⟩ := h
    exact hdb ▸ h0
  | cons item rest ih =>
    simp only [processItems] at h
    cases hfind : findProduct db item.productId with
    | none => rw [hfind] at h; simp at h
    | some product =>
      simp only [hfind] at h
      by_cases hstock : product.stockQuantity < item.quantity
      · rw [if_pos hstock] at h; simp at h
      · rw [if_neg hstock] at h
        refine ih _ _ _ _ h ?_
        refine stocksNonneg_saveProduct db _ h0 ?_
        show 0 ≤ product.stockQuantity - item.quantity
        omega

theorem finishOrder_ok (userId : String) (d : CreateOrderData) (newOrderId : String)
    (newItemIds : List String) (uid : String) (total : Rat) (reqRx : Bool)
    (pend : List PendingOrderItem) (db1 : DB) (s : OrderSummary) (db' : DB)
    (h : finishOrder userId d newOrderId newItemIds uid total reqRx pend db1 = (Except.ok s, db')) :
    (reqRx = true → approvedRxFor db1 userId d.prescriptionId ≠ none) ∧
    0 < total ∧
    s = ⟨newOrderId, total, OrderStatus.pending, d.shippingAddress⟩ ∧
    db' = { db1 with
      orders := db1.orders ++
        [⟨newOrderId, uid, total, OrderStatus.pending, d.shippingAddress,
          jsTruthyStr d.prescriptionId, jsTruthyStr d.notes⟩],
      orderItems := db1.orderItems ++ mkOrderItems newItemIds newOrderId pend } := by
  unfold finishOrder at h
  cases reqRx with
  | false =>
    simp only [if_neg (by simp : ¬(false = true))] at h
    simp only [validateOrderEntity, decide_eq_true_eq] at h
    by_cases hval : 0 < total
    · rw [if_pos hval] at h
      simp only [Prod.mk.injEq, Except.ok.injEq] at h
      exact ⟨by simp, hval, h.1.symm, h.2.symm⟩
    · rw [if_neg hval] at h
      simp at h
  | true =>
    cases hjs : jsTruthyStr d.prescriptionId with
    | none =>
      simp only [hjs] at h
      simp at h
    | some pid =>
      simp only [hjs] at h
      cases hfr : db1.prescriptions.find? (fun pr =>
          pr.id == pid && pr.userId == userId && pr.status == PrescriptionStatus.approved) with
      | none =>
        simp only [hfr] at h
        simp at h
      | some pr =>
        simp only [hfr, if_true, validateOrderEntity, decide_eq_true_eq] at h
        by_cases hval : 0 < total
        · rw [if_pos hval] at h
          simp only [Prod.mk.injEq, Except.ok.injEq] at h
          refine ⟨?_, hval, h.1.symm, h.2.symm⟩
          intro _
          unfold approvedRxFor
          rw [hjs]
          show db1.prescriptions.find? (fun pr =>
              pr.id == pid && pr.userId == userId &&
                pr.status == PrescriptionStatus.approved) ≠ none
          rw [hfr]
          simp
        · rw [if_neg hval] at h
          simp at h

theorem createOrder_ok (userId : String) (d : CreateOrderData) (newOrderId : String)
    (newItemIds : List String) (db : DB) (s : OrderSummary) (db' : DB)
    (h : createOrder userId d newOrderId newItemIds db = (Except.ok s, db')) :
    ∃ user, db.users.find? (fun u => u.id == userId) = some user ∧
      s = ⟨newOrderId, cartTotal db d.items, OrderStatus.pending, d.shippingAddress⟩ ∧
      db'.orders = db.orders ++
        [⟨newOrderId, user.id, cartTotal db d.items, OrderStatus.pending, d.shippingAddress,
          jsTruthyStr d.prescriptionId, jsTruthyStr d.notes⟩] ∧
      db'.orderItems = db.orderItems ++
        mkOrderItems newItemIds newOrderId (d.items.map (pendingOf db)) ∧
      db'.prescriptions = db.prescriptions ∧
      db'.users = db.users ∧
      (∀ pid, productView db' pid = productView db pid) ∧
      (∀ pid, stockOf db' pid = (stockOf db pid).map (fun x => x - cartQty d.items pid)) ∧
      (d.items.any (fun it => productNeedsRx db it.productId) = true →
        approvedRxFor db userId d.prescriptionId ≠ none) ∧
      0 < cartTotal db d.items ∧
      (stocksNonneg db → stocksNonneg db') := by
  unfold createOrder at h
  by_cases hempty : d.items.isEmpty
  · rw [if_pos hempty] at h; simp at h
  · rw [if_neg hempty] at h
    by_cases haddr : d.shippingAddress = ""
    · rw [if_pos haddr] at h; simp at h
    · rw [if_neg haddr] at h
      cases huser : db.users.find? (fun u => u.id == userId) with
      | none => rw [huser] at h; simp at h
      | some user =>
        simp only [huser] at h
        have hbody := transaction_ok db _ s db' h
        unfold createOrderTxn at hbody
        cases hpi : processItems d.items 0 false [] db with
        | mk r db1 =>
          rw [hpi] at hbody
          cases r with
          | error e => simp at hbody
          | ok trip =>
            obtain ⟨total, reqRx, pend⟩ := trip
            obtain ⟨hview, hord, hoit, hrxs, husers, ht, hf, hpend, hstk⟩ :=
              processItems_ok d.items 0 false [] db total reqRx pend db1 hpi
            rw [zero_add] at ht
            obtain ⟨hgate, hpos, hs, hdb'⟩ :=
              finishOrder_ok userId d newOrderId newItemIds user.id total reqRx pend db1 s db' hbody
            refine ⟨user, rfl, ?_, ?_, ?_, ?_, ?_, ?_, ?_, ?_, ?_, ?_⟩
            · rw [hs, ht]
            · rw [hdb']
              show db1.orders ++ _ = _
              rw [hord, ht]
            · rw [hdb']
              show db1.orderItems ++ _ = _
              rw [hoit, hpend]
              simp
            · rw [hdb']
              show db1.prescriptions = _
              exact hrxs
            · rw [hdb']
              show db1.users = _
              exact husers
            · intro pid
              rw [hdb']
              exact hview pid
            · intro pid
              rw [hdb']
              exact hstk pid
            · intro hany
              have hreq : reqRx = true := by
                rw [hf, hany]
                simp
              have hne := hgate hreq
              have hcong : approvedRxFor db1 userId d.prescriptionId =
                  approvedRxFor db userId d.prescriptionId := by
                unfold approvedRxFor
                simp only [hrxs]
              exact hcong ▸ hne
            · rw [← ht]
              exact hpos
            · intro h0
              have h1 : stocksNonneg db1 :=
                processItems_stocksNonneg d.items 0 false [] db total reqRx pend db1 hpi h0
              rw [hdb']
              intro p hp
              exact h1 p hp

theorem createOrder_error (userId : String) (d : CreateOrderData) (newOrderId : String)
    (newItemIds : List String) (db : DB) (e : AppError) (db' : DB)
    (h : createOrder userId d newOrderId newItemIds db = (Except.error e, db')) :
    db' = db := by
  unfold createOrder at h
  by_cases hempty : d.items.isEmpty
  · rw [if_pos hempty] at h
    simp only [Prod.mk.injEq] at h
    exact h.2.symm
  · rw [if_neg hempty] at h
    by_cases haddr : d.shippingAddress = ""
    · rw [if_pos haddr] at h
      simp only [Prod.mk.injEq] at h
      exact h.2.symm
    · rw [if_neg haddr] at h
      cases huser : db.users.find? (fun u => u.id == userId) with
      | none =>
        simp only [huser, Prod.mk.injEq] at h
        exact h.2.symm
      | some user =>
        simp only [huser] at h
        exact transaction_error db _ e db' h

theorem cancelOrder_ok (userId : String) (orderId : String) (db db' : DB)
    (h : cancelOrder userId orderId db = (Except.ok (), db')) :
    ∃ order, db.orders.find? (fun o => o.id == orderId && o.userId == userId) = some order ∧
      order.status = OrderStatus.pending ∧
      db' = saveOrder
        (restoreStock (db.orderItems.filter (fun it => it.orderId == order.id)) db)
        { order with status := OrderStatus.cancelled } := by
  have hbody := transaction_ok db _ () db' h
  unfold cancelOrderTxn at hbody
  cases hord : db.orders.find? (fun o => o.id == orderId && o.userId == userId) with
  | none => simp only [hord] at hbody; simp at hbody
  | some order =>
    simp only [hord] at hbody
    by_cases hst : order.status ≠ OrderStatus.pending
    · rw [if_pos hst] at hbody
      simp at hbody
    · rw [if_neg hst] at hbody
      simp only [Prod.mk.injEq] at hbody
      exact ⟨order, rfl, not_not.mp hst, hbody.2.symm⟩

theorem cancelOrder_error (userId : String) (orderId : String) (db : DB)
    (e : AppError) (db' : DB)
    (h : cancelOrder userId orderId db = (Except.error e, db')) : db' = db :=
  transaction_error db _ e db' h

theorem saveProduct_setRx (db : DB) (ps : List Prescription) (p : Product) :
    saveProduct { db with prescriptions := ps } p =
      { saveProduct db p with prescriptions := ps } := by
  unfold saveProduct
  by_cases hany : db.products.any (fun q => q.id == p.id)
  · simp [hany]
  · simp [hany]

theorem processItems_setRx (items : List CartItem) (t : Rat) (f : Bool)
    (acc : List PendingOrderItem) (db : DB) (ps : List Prescription) :
    processItems items t f acc { db with prescriptions := ps } =
      ((processItems items t f acc db).1,
        { (processItems items t f acc db).2 with prescriptions := ps }) := by
  induction items generalizing t f acc db with
  | nil => rfl
  | cons item rest ih =>
    simp only [processItems]
    have hfp : findProduct { db with prescriptions := ps } item.productId =
        findProduct db item.productId := rfl
    rw [hfp]
    cases hfind : findProduct db item.productId with
    | none => simp [hfind]
    | some product =>
      simp only [hfind]
      by_cases hstock : product.stockQuantity < item.quantity
      · simp [if_pos hstock]
      · simp only [if_neg hstock]
        rw [saveProduct_setRx]
        exact ih _ _ _ _

theorem finishOrder_fst_noRx (userId : String) (d : CreateOrderData) (newOrderId : String)
    (newItemIds : List String) (uid : String) (total : Rat)
    (pend : List PendingOrderItem) (db1 : DB) (ps : List Prescription) :
    (finishOrder userId d newOrderId newItemIds uid total false pend
      { db1 with prescriptions := ps }).1 =
      (finishOrder userId d newOrderId newItemIds uid total false pend db1).1 := by
  unfold finishOrder
  simp only [if_neg (by simp : ¬(false = true))]
  by_cases hval : validateOrderEntity
      { id := newOrderId, userId := uid, totalAmount := total,
        status := OrderStatus.pending, shippingAddress := d.shippingAddress,
        prescriptionId := jsTruthyStr d.prescriptionId, notes := jsTruthyStr d.notes } = true
  · simp [hval]
  · simp [hval]

theorem createOrder_fst_noRx (userId : String) (d : CreateOrderData) (newOrderId : String)
    (newItemIds : List String) (db : DB) (ps : List Prescription)
    (t : Rat) (pend : List PendingOrderItem) (db1 : DB)
    (hpi : processItems d.items 0 false [] db = (Except.ok (t, false, pend), db1)) :
    (createOrder userId d newOrderId newItemIds { db with prescriptions := ps }).1 =
      (createOrder userId d newOrderId newItemIds db).1 := by
  unfold createOrder
  by_cases hempty : d.items.isEmpty
  · simp [hempty]
  · by_cases haddr : d.shippingAddress = ""
    · simp [hempty, haddr]
    · have h1 : ({ db with prescriptions := ps } : DB).users = db.users := rfl
      cases huser : db.users.find? (fun u => u.id == userId) with
      | none =>
        simp only [if_neg hempty, if_neg haddr, h1, huser]
      | some user =>
        simp only [if_neg hempty, if_neg haddr, h1, huser]
        rw [transaction_fst, transaction_fst]
        unfold createOrderTxn
        rw [processItems_setRx]
        simp only [hpi]
        exact finishOrder_fst_noRx userId d newOrderId newItemIds user.id t pend db1 ps

theorem mkOrderItems_map_core (ids : List String) (oid : String)
    (pend : List PendingOrderItem) :
    (mkOrderItems ids oid pend).map
        (fun oi => (oi.productId, oi.quantity, oi.unitPrice, oi.totalPrice)) =
      pend.map (fun p => (p.productId, p.quantity, p.unitPrice, p.totalPrice)) := by
  induction pend generalizing ids with
  | nil => rfl
  | cons p rest ih => simp [mkOrderItems, ih]

theorem mkOrderItems_mem (ids : List String) (oid : String)
    (pend : List PendingOrderItem) (oi : OrderItem)
    (hm : oi ∈ mkOrderItems ids oid pend) :
    oi.orderId = oid ∧ ∃ p ∈ pend, oi.productId = p.productId ∧ oi.quantity = p.quantity ∧
      oi.unitPrice = p.unitPrice ∧ oi.totalPrice = p.totalPrice := by
  induction pend generalizing ids with
  | nil => simp [mkOrderItems] at hm
  | cons p rest ih =>
    simp only [mkOrderItems, List.mem_cons] at hm
    cases hm with
    | inl hh =>
      subst hh
      exact ⟨rfl, p, List.mem_cons_self _ _, rfl, rfl, rfl, rfl⟩
    | inr hh =>
      obtain ⟨ho, q, hq, hrest⟩ := ih _ hh
      exact ⟨ho, q, List.mem_cons_of_mem _ hq, hrest⟩

theorem rx_eq_of_same_id (l : List Prescription)
    (hu : l.Pairwise (fun a b => a.id ≠ b.id)) (p q : Prescription)
    (hp : p ∈ l) (hq : q ∈ l) (hid : p.id = q.id) : p = q := by
  induction l with
  | nil => simp at hp
  | cons a rest ih =>
    rcases List.pairwise_cons.mp hu with ⟨ha, hrest⟩
    rcases List.mem_cons.mp hp with hp1 | hp1
    · rcases List.mem_cons.mp hq with hq1 | hq1
      · rw [hp1, hq1]
      · rw [hp1] at hid
        exact absurd hid (ha q hq1)
    · rcases List.mem_cons.mp hq with hq1 | hq1
      · rw [hq1] at hid
        exact absurd hid.symm (ha p hp1)
      · exact ih hrest hp1 hq1

theorem savePrescription_mem_other (db : DB) (p1 p : Prescription)
    (hp : p ∈ db.prescriptions) (hne : p.id ≠ p1.id) :
    p ∈ (savePrescription db p1).prescriptions := by
  unfold savePrescription
  split
  · simp only [List.mem_map]
    exact ⟨p, hp, by simp [hne]⟩
  · exact List.mem_append_left _ hp

theorem createOrder_prescriptions (userId : String) (d : CreateOrderData)
    (newOrderId : String) (newItemIds : List String) (db : DB) :
    (createOrder userId d newOrderId newItemIds db).2.prescriptions = db.prescriptions := by
  cases hres : createOrder userId d newOrderId newItemIds db with
  | mk r db' =>
    cases r with
    | ok s =>
      obtain ⟨_, _, _, _, _, hrx, _⟩ := createOrder_ok userId d newOrderId newItemIds db s db' hres
      exact hrx
    | error e =>
      have := createOrder_error userId d newOrderId newItemIds db e db' hres
      rw [this]

theorem cancelOrder_prescriptions (userId : String) (orderId : String) (db : DB) :
    (cancelOrder userId orderId db).2.prescriptions = db.prescriptions := by
  cases hres : cancelOrder userId orderId db with
  | mk r db' =>
    cases r with
    | ok u =>
      cases u
      obtain ⟨order, _, _, hdb'⟩ := cancelOrder_ok userId orderId db db' hres
      rw [hdb', saveOrder_prescriptions, restoreStock_prescriptions]
    | error e =>
      have := cancelOrder_error userId orderId db e db' hres
      rw [this]

theorem processRefund_prescriptions (userId : String) (r : RefundData) (db : DB) :
    (processRefund userId r db).2.prescriptions = db.prescriptions := by
  unfold processRefund
  cases hord : db.orders.find? (fun o => o.id == r.orderId && o.userId == userId) with
  | none => rfl
  | some order =>
    simp only
    split
    · split
      · rfl
      · exact saveOrder_prescriptions db _
    · rfl

theorem updateOrderStatus_prescriptions (orderId : String) (status : OrderStatus) (db : DB) :
    (updateOrderStatus orderId status db).2.prescriptions = db.prescriptions := by
  unfold updateOrderStatus
  cases hord : db.orders.find? (fun o => o.id == orderId) with
  | none => rfl
  | some order => exact saveOrder_prescriptions db _

theorem transaction_error_of_body {α : Type} (db dbe : DB)
    (body : DB → Except AppError α × DB) (e : AppError)
    (hb : body db = (Except.error e, dbe)) :
    transaction db body = (Except.error e, db) := by
  unfold transaction
  rw [hb]

theorem stockOf_saveOrder (db : DB) (o : Order) (pid : String) :
    stockOf (saveOrder db o) pid = stockOf db pid := by
  unfold stockOf
  rw [findProduct_eq, findProduct_eq, saveOrder_products]

theorem stocksNonneg_saveOrder (db : DB) (o : Order) (h : stocksNonneg db) :
    stocksNonneg (saveOrder db o) := by
  unfold stocksNonneg at *
  rw [saveOrder_products]
  exact h

theorem findOrder_facts {l : List Order} {oid uid : String} {o : Order}
    (h : l.find? (fun x => x.id == oid && x.userId == uid) = some o) :
    o ∈ l ∧ o.id = oid ∧ o.userId = uid := by
  have hm := List.mem_of_find?_eq_some h
  have hb := List.find?_some h
  simp at hb
  exact ⟨hm, hb.1, hb.2⟩

theorem findRx_facts {l : List Prescription} {pid uid : String} {pr : Prescription}
    (h : l.find? (fun x => x.id == pid && x.userId == uid &&
      x.status == PrescriptionStatus.approved) = some pr) :
    pr ∈ l ∧ pr.id = pid ∧ pr.userId = uid ∧ pr.status = PrescriptionStatus.approved := by
  have hm := List.mem_of_find?_eq_some h
  have hb := List.find?_some h
  simp at hb
  exact ⟨hm, hb.1.1, hb.1.2, hb.2⟩

theorem uploadPrescription_extend (userId : String) (fd : UploadPrescriptionData)
    (newId : String) (db : DB) :
    (uploadPrescription userId fd newId db).2.prescriptions = db.prescriptions ∨
      ∃ p, (uploadPrescription userId fd newId db).2.prescriptions =
        db.prescriptions ++ [p] := by
  unfold uploadPrescription
  cases huser : db.users.find? (fun u => u.id == userId) with
  | none => exact Or.inl rfl
  | some u =>
    simp only
    split
    · exact Or.inl rfl
    · split
      · exact Or.inl rfl
      · split
        · exact Or.inl rfl
        · split
          · exact Or.inr ⟨_, rfl⟩
          · exact Or.inl rfl

theorem reviewPrescription_shape (prescriptionId : String) (st : PrescriptionStatus)
    (notes adminId : Option String) (db : DB) :
    (reviewPrescription prescriptionId st notes adminId db).2 = db ∨
      ∃ q, db.prescriptions.find? (fun x => x.id == prescriptionId) = some q ∧
        q.status = PrescriptionStatus.pending ∧
        (reviewPrescription prescriptionId st notes adminId db).2 =
          savePrescription db
            { q with
              status := st,
              adminNotes := match jsTruthyStr notes with
                | none => q.adminNotes
                | some n => some n,
              approvedBy := match jsTruthyStr adminId with
                | none => q.approvedBy
                | some a => some a } := by
  unfold reviewPrescription
  split
  · exact Or.inl rfl
  · cases hfr : db.prescriptions.find? (fun x => x.id == prescriptionId) with
    | none => exact Or.inl rfl
    | some q =>
      simp only
      split
      · exact Or.inl rfl
      · rename_i hq
        exact Or.inr ⟨q, rfl, not_not.mp hq, rfl⟩

theorem deletePrescription_shape (userId : String) (prescriptionId : String) (db : DB) :
    (deletePrescription userId prescriptionId db).2 = db ∨
      ∃ q, db.prescriptions.find? (fun x => x.id == prescriptionId && x.userId == userId) =
          some q ∧
        q.status = PrescriptionStatus.pending ∧
        (deletePrescription userId prescriptionId db).2.prescriptions =
          db.prescriptions.filter (fun x => x.id != q.id) := by
  unfold deletePrescription
  cases hfr : db.prescriptions.find? (fun x => x.id == prescriptionId && x.userId == userId) with
  | none => exact Or.inl rfl
  | some q =>
    simp only
    split
    · exact Or.inl rfl
    · rename_i hq
      exact Or.inr ⟨q, rfl, not_not.mp hq, rfl⟩

theorem processRefund_ok_inv (userId : String) (r : RefundData) (db : DB)
    (res : RefundResult) (db' : DB)
    (h : processRefund userId r db = (Except.ok res, db')) :
    ∃ o, db.orders.find? (fun x => x.id == r.orderId && x.userId == userId) = some o ∧
      (o.status = OrderStatus.approved ∨ o.status = OrderStatus.shipped ∨
        o.status = OrderStatus.delivered) ∧
      res = ⟨true, refundAmountOf o r⟩ ∧
      refundAmountOf o r ≤ o.totalAmount ∧
      db' = saveOrder db { o with status := OrderStatus.cancelled } := by
  unfold processRefund at h
  cases hord : db.orders.find? (fun x => x.id == r.orderId && x.userId == userId) with
  | none => simp only [hord] at h; simp at h
  | some o =>
    simp only [hord] at h
    by_cases helig : o.status = OrderStatus.approved ∨ o.status = OrderStatus.shipped ∨
        o.status = OrderStatus.delivered
    · rw [if_pos helig] at h
      by_cases hcmp : o.totalAmount < refundAmountOf o r
      · rw [if_pos hcmp] at h
        simp at h
      · rw [if_neg hcmp] at h
        simp only [Prod.mk.injEq, Except.ok.injEq] at h
        exact ⟨o, rfl, helig, h.1.symm, not_lt.mp hcmp, h.2.symm⟩
    · rw [if_neg helig] at h
      simp at h

theorem processRefund_error_inv (userId : String) (r : RefundData) (db : DB)
    (e : AppError) (db' : DB)
    (h : processRefund userId r db = (Except.error e, db')) : db' = db := by
  unfold processRefund at h
  cases hord : db.orders.find? (fun x => x.id == r.orderId && x.userId == userId) with
  | none =>
    simp only [hord, Prod.mk.injEq] at h
    exact h.2.symm
  | some o =>
    simp only [hord] at h
    by_cases helig : o.status = OrderStatus.approved ∨ o.status = OrderStatus.shipped ∨
        o.status = OrderStatus.delivered
    · rw [if_pos helig] at h
      by_cases hcmp : o.totalAmount < refundAmountOf o r
      · rw [if_pos hcmp] at h
        simp only [Prod.mk.injEq] at h
        exact h.2.symm
      · rw [if_neg hcmp] at h
        simp at h
    · rw [if_neg helig] at h
      simp only [Prod.mk.injEq] at h
      exact h.2.symm

theorem updateOrderStatus_ok_inv (orderId : String) (st : OrderStatus) (db db' : DB)
    (h : updateOrderStatus orderId st db = (Except.ok (), db')) :
    ∃ o, db.orders.find? (fun x => x.id == orderId) = some o ∧
      db' = saveOrder db { o with status := st } := by
  unfold updateOrderStatus at h
  cases hord : db.orders.find? (fun x => x.id == orderId) with
  | none => simp only [hord] at h; simp at h
  | some o =>
    simp only [hord, Prod.mk.injEq] at h
    exact ⟨o, rfl, h.2.symm⟩

theorem applyOrderOp_preserves (db : DB) (op : OrderOp)
    (h0 : stocksNonneg db) (h1 : itemQtysNonneg db) (hop : opQtysNonneg op) :
    stocksNonneg (applyOrderOp db op) ∧ itemQtysNonneg (applyOrderOp db op) := by
  cases op with
  | create u d oid iids =>
    show stocksNonneg (createOrder u d oid iids db).2 ∧
      itemQtysNonneg (createOrder u d oid iids db).2
    cases hres : createOrder u d oid iids db with
    | mk r db' =>
      cases r with
      | error e =>
        rw [createOrder_error u d oid iids db e db' hres]
        exact ⟨h0, h1⟩
      | ok s =>
        obtain ⟨user, _, _, _, hoit, _, _, _, _, _, _, hnn⟩ :=
          createOrder_ok u d oid iids db s db' hres
        refine ⟨hnn h0, ?_⟩
        intro oi hoi
        rw [hoit] at hoi
        rcases List.mem_append.mp hoi with hold | hnew
        · exact h1 oi hold
        · obtain ⟨_, p, hp, _, hqty, _⟩ := mkOrderItems_mem iids oid _ oi hnew
          rcases List.mem_map.mp hp with ⟨it, hit, hpeq⟩
          rw [hqty, ← hpeq]
          exact hop it hit
  | cancel u oid =>
    show stocksNonneg (cancelOrder u oid db).2 ∧ itemQtysNonneg (cancelOrder u oid db).2
    cases hres : cancelOrder u oid db with
    | mk r db' =>
      cases r with
      | error e =>
        rw [cancelOrder_error u oid db e db' hres]
        exact ⟨h0, h1⟩
      | ok unit1 =>
        cases unit1
        obtain ⟨order, hfind, hst, hdb'⟩ := cancelOrder_ok u oid db db' hres
        rw [hdb']
        constructor
        · refine stocksNonneg_saveOrder _ _ ?_
          refine restoreStock_stocksNonneg _ db h0 ?_
          intro it hit
          exact h1 it (List.mem_of_mem_filter hit)
        · intro it hit
          rw [saveOrder_orderItems, restoreStock_orderItems] at hit
          exact h1 it hit

theorem applyOrderOps_preserves (ops : List OrderOp) (db : DB)
    (h0 : stocksNonneg db) (h1 : itemQtysNonneg db)
    (hops : ∀ op ∈ ops, opQtysNonneg op) :
    stocksNonneg (applyOrderOps db ops) ∧ itemQtysNonneg (applyOrderOps db ops) := by
  induction ops generalizing db with
  | nil => exact ⟨h0, h1⟩
  | cons op rest ih =>
    have hstep := applyOrderOp_preserves db op h0 h1 (hops op (List.mem_cons_self _ _))
    exact ih (applyOrderOp db op) hstep.1 hstep.2
      (fun o ho => hops o (List.mem_cons_of_mem _ ho))

set_option maxRecDepth 100000 in
/-- C1, counterexample: from a state with stocks 5 and 20, a createOrder
call with an unvalidated quantity of -10, a second order consuming the
inflated stock, and a cancellation of the first order leave product p1
with stock -10, so the claimed invariant fails for arbitrary
caller-supplied quantities. -/
theorem stock_nonneg_invariant_counterexample :
    stocksNonneg negDb ∧
    stockOf (applyOrderOps negDb negOps) "p1" = some (-10) ∧
    ¬ stocksNonneg (applyOrderOps negDb negOps) := by
  decide

/-- C1, amended: starting from any state in which every product stock
and every stored order-item quantity is non-negative, any sequence of
createOrder and cancelOrder operations whose caller-supplied quantities
are all non-negative keeps every product stock non-negative. -/
theorem stock_nonneg_invariant_for_nonneg_quantities (db : DB) (ops : List OrderOp)
    (h0 : stocksNonneg db) (h1 : itemQtysNonneg db)
    (hops : ∀ op ∈ ops, opQtysNonneg op) :
    stocksNonneg (applyOrderOps db ops) :=
  (applyOrderOps_preserves ops db h0 h1 hops).1

/-- C1, witness: the amended invariant holds concretely for an
order-then-cancel sequence with positive quantities. -/
theorem stock_nonneg_invariant_for_nonneg_quantities_witness :
    stocksNonneg (applyOrderOps negDb posOps) :=
  stock_nonneg_invariant_for_nonneg_quantities negDb posOps
    (by decide) (by decide) (by decide)

/-- C2: every failing createOrder call leaves the persistent state
completely unchanged — no stock decrement, no order row, no order-item
row survives, because everything runs inside a rolled-back transaction
and all pre-transaction checks are pure reads. -/
theorem createOrder_error_leaves_state_unchanged (userId : String) (d : CreateOrderData)
    (newOrderId : String) (newItemIds : List String) (db : DB) (e : AppError) (db' : DB)
    (h : createOrder userId d newOrderId newItemIds db = (Except.error e, db')) :
    db' = db ∧ db'.products = db.products ∧ db'.orders = db.orders ∧
      db'.orderItems = db.orderItems := by
  have hd := createOrder_error userId d newOrderId newItemIds db e db' h
  exact ⟨hd, by rw [hd], by rw [hd], by rw [hd]⟩

/-- C2, witness: an insufficient-stock failure on a concrete state
leaves that state unchanged. -/
theorem createOrder_error_leaves_state_unchanged_witness :
    createOrder "u1" ⟨[⟨"p1", 100⟩], "addr", none, none⟩ "o1" ["i1"] negDb =
      (Except.error ⟨"Insufficient stock for product: Bandage", 400⟩, negDb) ∧
    (createOrder "u1" ⟨[⟨"p1", 100⟩], "addr", none, none⟩ "o1" ["i1"] negDb).2 = negDb := by
  constructor
  · decide
  · exact (createOrder_error_leaves_state_unchanged "u1" ⟨[⟨"p1", 100⟩], "addr", none, none⟩
      "o1" ["i1"] negDb ⟨"Insufficient stock for product: Bandage", 400⟩
      (createOrder "u1" ⟨[⟨"p1", 100⟩], "addr", none, none⟩ "o1" ["i1"] negDb).2
      (by decide)).1

set_option maxRecDepth 100000 in
/-- C7: creating an order for user u1 returns id order-1, but the GET
/orders/:id controller passes (req.params.id, req.user.userId) into a
service whose parameters are (userId, orderId); the swapped lookup
filters on id = u1 and userId = order-1, so the round trip answers 404
Order not found even though the service, called with its parameters in
the declared order, returns the order. -/
theorem create_then_controller_fetch_returns_404 :
    (createOrder "u1" rtOrderData "order-1" ["i1"] rtDb).1 =
      Except.ok ⟨"order-1", 2, OrderStatus.pending, "addr"⟩ ∧
    (createOrder "u1" rtOrderData "order-1" ["i1"] rtDb).2 = rtDbAfter ∧
    controllerGetOrderById "order-1" "u1" rtDbAfter = ⟨404, false, "Order not found"⟩ ∧
    getOrderById "u1" "order-1" rtDbAfter =
      Except.ok ⟨"order-1", "u1", 2, OrderStatus.pending, "addr", none, none⟩ := by
  decide

/-- C4: every successful createOrder call returns and persists an order
whose totalAmount is the sum over the cart of current price times
requested quantity, and persists one order item per cart line whose
unitPrice is the product price at creation time and whose totalPrice is
unitPrice times quantity. -/
theorem createOrder_totalAmount_correct (userId : String) (d : CreateOrderData)
    (newOrderId : String) (newItemIds : List String) (db : DB) (s : OrderSummary) (db' : DB)
    (h : createOrder userId d newOrderId newItemIds db = (Except.ok s, db')) :
    s.totalAmount = cartTotal db d.items ∧
    (∃ o, db'.orders = db.orders ++ [o] ∧ o.id = newOrderId ∧
      o.totalAmount = cartTotal db d.items) ∧
    (∃ newItems, db'.orderItems = db.orderItems ++ newItems ∧
      (∀ oi ∈ newItems, oi.orderId = newOrderId) ∧
      newItems.map (fun oi => (oi.productId, oi.quantity, oi.unitPrice, oi.totalPrice)) =
        d.items.map (fun it => (it.productId, it.quantity, priceOf db it.productId,
          priceOf db it.productId * (it.quantity : Rat)))) := by
  obtain ⟨user, _, hs, hords, hoits, _, _, _, _, _, _, _⟩ :=
    createOrder_ok userId d newOrderId newItemIds db s db' h
  refine ⟨by rw [hs], ⟨_, hords, rfl, rfl⟩, ⟨_, hoits, ?_, ?_⟩⟩
  · intro oi hm
    exact (mkOrderItems_mem _ _ _ oi hm).1
  · rw [mkOrderItems_map_core, List.map_map]
    rfl

set_option maxRecDepth 100000 in
/-- C4, witness: on a concrete cart of two units at price 1 the returned
total equals the cart total at current prices. -/
theorem createOrder_totalAmount_correct_witness :
    (2 : Rat) = cartTotal rtDb rtOrderData.items := by
  have h := createOrder_totalAmount_correct "u1" rtOrderData "order-1" ["i1"] rtDb
    ⟨"order-1", 2, OrderStatus.pending, "addr"⟩ rtDbAfter (by decide)
  exact h.1

/-- C5: every successful createOrder call decrements each product's
stock by exactly the total quantity the cart requests for it; products
the cart does not mention keep their stock, and every product keeps all
its fields other than stockQuantity. -/
theorem createOrder_stock_decrement_frame (userId : String) (d : CreateOrderData)
    (newOrderId : String) (newItemIds : List String) (db : DB) (s : OrderSummary) (db' : DB)
    (h : createOrder userId d newOrderId newItemIds db = (Except.ok s, db')) :
    (∀ pid, stockOf db' pid = (stockOf db pid).map (fun x => x - cartQty d.items pid)) ∧
    (∀ pid, productView db' pid = productView db pid) ∧
    (∀ pid, cartQty d.items pid = 0 → stockOf db' pid = stockOf db pid) := by
  obtain ⟨user, _, _, _, _, _, _, hview, hstk, _, _, _⟩ :=
    createOrder_ok userId d newOrderId newItemIds db s db' h
  refine ⟨hstk, hview, fun pid h0 => ?_⟩
  rw [hstk pid, h0]
  cases stockOf db pid <;> simp

set_option maxRecDepth 100000 in
/-- C5, witness: after the concrete order of two units of p1, the stock
of p1 equals its old stock minus the cart quantity, and the product p2
(absent from the cart) is unchanged under the stock-erased view. -/
theorem createOrder_stock_decrement_frame_witness :
    stockOf rtDbAfter "p1" =
      (stockOf rtDb "p1").map (fun x => x - cartQty rtOrderData.items "p1") ∧
    productView rtDbAfter "p1" = productView rtDb "p1" := by
  have h := createOrder_stock_decrement_frame "u1" rtOrderData "order-1" ["i1"] rtDb
    ⟨"order-1", 2, OrderStatus.pending, "addr"⟩ rtDbAfter (by decide)
  exact ⟨h.1 "p1", h.2.1 "p1"⟩

set_option maxRecDepth 100000 in
/-- C6, counterexample: a successful processRefund sets the order's
status to CANCELLED but the referenced product's stock stays at 10
instead of increasing by the line-item quantity 2, refuting the claim
that every transition to CANCELLED restores stock. -/
theorem refund_cancellation_does_not_restore_stock :
    processRefund "u1" ⟨"o1", "changed my mind", none⟩ refundDb =
      (Except.ok ⟨true, 50⟩, refundCancelledDb) ∧
    stockOf refundDb "p1" = some 10 ∧
    stockOf refundCancelledDb "p1" = some 10 := by
  decide

/-- C6, amended: only OrderService.cancelOrder restores stock: on its
success each product's stock grows by the cancelled order's summed
line-item quantities for that product, while PaymentService.processRefund
and OrderService.updateOrderStatus leave the product table untouched
even when they set the status to CANCELLED. -/
theorem stock_restoration_only_on_cancelOrder (userId : String) (orderId : String)
    (db db' dbr dbu : DB) (r : RefundData) (res : RefundResult) (st : OrderStatus) :
    (cancelOrder userId orderId db = (Except.ok (), db') →
      ∀ pid, stockOf db' pid =
        (stockOf db pid).map (fun s => s + orderItemsQty db orderId pid)) ∧
    (processRefund userId r db = (Except.ok res, dbr) →
      dbr.products = db.products ∧
      ∃ o, db.orders.find? (fun x => x.id == r.orderId && x.userId == userId) = some o ∧
        dbr = saveOrder db { o with status := OrderStatus.cancelled }) ∧
    (updateOrderStatus orderId st db = (Except.ok (), dbu) → dbu.products = db.products) := by
  refine ⟨?_, ?_, ?_⟩
  · intro h pid
    obtain ⟨order, hfind, hst, hdb'⟩ := cancelOrder_ok userId orderId db db' h
    obtain ⟨_, hoid, _⟩ := findOrder_facts hfind
    rw [hdb', stockOf_saveOrder, restoreStock_stockOf]
    unfold orderItemsQty
    rw [hoid]
  · intro h
    obtain ⟨o, hfind, _, _, _, hdbr⟩ := processRefund_ok_inv userId r db res dbr h
    exact ⟨by rw [hdbr, saveOrder_products], o, hfind, hdbr⟩
  · intro h
    obtain ⟨o, _, hdbu⟩ := updateOrderStatus_ok_inv orderId st db dbu h
    rw [hdbu, saveOrder_products]

set_option maxRecDepth 100000 in
/-- C6, witness: cancelling the concrete pending order restores p1's
stock from 10 to 12, while a refund and an admin status change on the
approved-order state leave the product table untouched. -/
theorem stock_restoration_only_on_cancelOrder_witness :
    stockOf cancelRestoredDb "p1" =
      (stockOf pendingOrderDb "p1").map
        (fun s => s + orderItemsQty pendingOrderDb "o1" "p1") ∧
    refundCancelledDb.products = refundDb.products ∧
    (updateOrderStatus "o1" OrderStatus.cancelled refundDb).2.products =
      refundDb.products := by
  refine ⟨?_, ?_, ?_⟩
  · exact (stock_restoration_only_on_cancelOrder "u1" "o1" pendingOrderDb cancelRestoredDb
      refundCancelledDb refundDb ⟨"o1", "x", none⟩ ⟨true, 50⟩ OrderStatus.cancelled).1
      (by decide) "p1"
  · exact ((stock_restoration_only_on_cancelOrder "u1" "o1" refundDb refundDb
      refundCancelledDb refundDb ⟨"o1", "x", none⟩ ⟨true, 50⟩ OrderStatus.cancelled).2.1
      (by decide)).1
  · exact (stock_restoration_only_on_cancelOrder "u1" "o1" refundDb refundDb
      refundCancelledDb (updateOrderStatus "o1" OrderStatus.cancelled refundDb).2
      ⟨"o1", "x", none⟩ ⟨true, 50⟩ OrderStatus.cancelled).2.2 (by decide)

set_option maxRecDepth 100000 in
/-- C10, counterexample: on an APPROVED order of total 50, a refund
request that supplies amount 0 refunds 50 — the JS expression
`amount || order.totalAmount` treats the supplied 0 as absent — so the
refunded amount is not the caller-supplied amount. -/
theorem refund_zero_amount_refunds_total :
    processRefund "u1" ⟨"o1", "changed my mind", some 0⟩ refundDb =
      (Except.ok ⟨true, 50⟩, refundCancelledDb) ∧
    (50 : Rat) ≠ 0 := by
  decide

/-- C10, amended: processRefund errors unless the order exists for the
requesting user with status APPROVED, SHIPPED or DELIVERED; the refunded
amount is the caller-supplied amount when it is nonzero and the order's
totalAmount when the amount is omitted or zero; the refunded amount
never exceeds totalAmount; and on success the order's status is set to
CANCELLED. On any error the state is unchanged. -/
theorem processRefund_eligibility_and_bound (userId : String) (r : RefundData)
    (db : DB) (res : RefundResult) (db' : DB) (e : AppError) (dbe : DB) :
    (processRefund userId r db = (Except.ok res, db') →
      ∃ o, db.orders.find? (fun x => x.id == r.orderId && x.userId == userId) = some o ∧
        (o.status = OrderStatus.approved ∨ o.status = OrderStatus.shipped ∨
          o.status = OrderStatus.delivered) ∧
        res = ⟨true, refundAmountOf o r⟩ ∧
        res.amount ≤ o.totalAmount ∧
        db' = saveOrder db { o with status := OrderStatus.cancelled }) ∧
    (processRefund userId r db = (Except.error e, dbe) → dbe = db) := by
  constructor
  · intro h
    obtain ⟨o, hfind, helig, hres, hle, hdb'⟩ := processRefund_ok_inv userId r db res db' h
    refine ⟨o, hfind, helig, hres, ?_, hdb'⟩
    rw [hres]
    exact hle
  · exact processRefund_error_inv userId r db e dbe

set_option maxRecDepth 100000 in
/-- C10, witness: a full refund of the concrete APPROVED order refunds
exactly the order total 50, stays within the bound, and cancels the
order; a refund on the cancelled state errors and changes nothing. -/
theorem processRefund_eligibility_and_bound_witness :
    (∃ o, refundDb.orders.find?
        (fun x => x.id == "o1" && x.userId == "u1") = some o ∧
      (o.status = OrderStatus.approved ∨ o.status = OrderStatus.shipped ∨
        o.status = OrderStatus.delivered) ∧
      (⟨true, 50⟩ : RefundResult) = ⟨true, refundAmountOf o ⟨"o1", "why", none⟩⟩ ∧
      (⟨true, 50⟩ : RefundResult).amount ≤ o.totalAmount ∧
      refundCancelledDb = saveOrder refundDb { o with status := OrderStatus.cancelled }) ∧
    refundCancelledDb = refundCancelledDb := by
  constructor
  · exact (processRefund_eligibility_and_bound "u1" ⟨"o1", "why", none⟩ refundDb
      ⟨true, 50⟩ refundCancelledDb ⟨"Order is not eligible for refund", 400⟩
      refundDb).1 (by decide)
  · exact (processRefund_eligibility_and_bound "u1" ⟨"o1", "why", none⟩ refundCancelledDb
      ⟨true, 50⟩ refundCancelledDb ⟨"Order is not eligible for refund", 400⟩
      refundCancelledDb).2 (by decide)

/-- C8: on the orders router, a request without a bearer token or with a
token that fails verification is answered 401 with the state untouched
and independently of the routed handler; a verified token whose role is
not USER is answered 403 the same way; and the handler — the controller
plus service — runs exactly when authenticate succeeded and
authorize(USER) passed. -/
theorem orders_router_auth_gate (verify : String → Option JwtPayload)
    (authHeader : Option String) (handler : JwtPayload → DB → HttpResponse × DB)
    (db : DB) (tok : String) (payload : JwtPayload) :
    (extractTokenFromHeader authHeader = none →
      ordersRouter verify authHeader handler db =
        (⟨401, false, "Access token is required"⟩, db)) ∧
    (extractTokenFromHeader authHeader = some tok → verify tok = none →
      ordersRouter verify authHeader handler db =
        (⟨401, false, "Invalid or expired token"⟩, db)) ∧
    (extractTokenFromHeader authHeader = some tok → verify tok = some payload →
      payload.role ≠ UserRole.user →
      ordersRouter verify authHeader handler db =
        (⟨403, false, "Insufficient permissions"⟩, db)) ∧
    (extractTokenFromHeader authHeader = some tok → verify tok = some payload →
      payload.role = UserRole.user →
      ordersRouter verify authHeader handler db = handler payload db) := by
  refine ⟨?_, ?_, ?_, ?_⟩
  · intro hx
    unfold ordersRouter authenticate
    simp only [hx]
  · intro hx hv
    unfold ordersRouter authenticate
    simp only [hx, hv]
  · intro hx hv hrole
    unfold ordersRouter authenticate authorize
    simp only [hx, hv]
    simp [hrole]
  · intro hx hv hrole
    unfold ordersRouter authenticate authorize
    simp only [hx, hv]
    simp [hrole]

/-- C8, witness: concrete requests against a verifier knowing one USER
and one ADMIN token: no header gives 401, an invalid token gives 401,
the admin token gives 403 — all leaving the state unchanged — and the
user token hands the request to the handler. -/
theorem orders_router_auth_gate_witness :
    ordersRouter sampleVerify none sampleHandler negDb =
      (⟨401, false, "Access token is required"⟩, negDb) ∧
    ordersRouter sampleVerify (some "Bearer bad") sampleHandler negDb =
      (⟨401, false, "Invalid or expired token"⟩, negDb) ∧
    ordersRouter sampleVerify (some "Bearer admintoken") sampleHandler negDb =
      (⟨403, false, "Insufficient permissions"⟩, negDb) ∧
    ordersRouter sampleVerify (some "Bearer usertoken") sampleHandler negDb =
      sampleHandler ⟨"u1", "u1@example.com", UserRole.user⟩ negDb := by
  refine ⟨?_, ?_, ?_, ?_⟩
  · exact (orders_router_auth_gate sampleVerify none sampleHandler negDb "t"
      ⟨"u1", "u1@example.com", UserRole.user⟩).1 (by decide)
  · exact (orders_router_auth_gate sampleVerify (some "Bearer bad") sampleHandler negDb "bad"
      ⟨"u1", "u1@example.com", UserRole.user⟩).2.1 (by decide) (by decide)
  · exact (orders_router_auth_gate sampleVerify (some "Bearer admintoken") sampleHandler negDb
      "admintoken" ⟨"a1", "a1@example.com", UserRole.admin⟩).2.2.1
      (by decide) (by decide) (by decide)
  · exact (orders_router_auth_gate sampleVerify (some "Bearer usertoken") sampleHandler negDb
      "usertoken" ⟨"u1", "u1@example.com", UserRole.user⟩).2.2.2
      (by decide) (by decide) (by decide)

/-- C3: for a cart containing a prescription-required product, a
successful createOrder implies the request supplied a (truthy)
prescriptionId resolving to a prescription owned by the ordering user
with status APPROVED; if the item loop passes but that condition fails,
createOrder raises an HTTP 400 error and the state is unchanged.
Conversely, for a cart with no prescription-required product the order
can be created without any prescriptionId, and the response does not
depend on the prescriptions table at all. -/
theorem createOrder_prescription_gating (userId : String) (d : CreateOrderData)
    (newOrderId : String) (newItemIds : List String) (db : DB) (s : OrderSummary)
    (db' db1 : DB) (t : Rat) (pend : List PendingOrderItem) (ps : List Prescription) :
    (createOrder userId d newOrderId newItemIds db = (Except.ok s, db') →
      d.items.any (fun it => productNeedsRx db it.productId) = true →
      ∃ pid pr, jsTruthyStr d.prescriptionId = some pid ∧ pr ∈ db.prescriptions ∧
        pr.id = pid ∧ pr.userId = userId ∧ pr.status = PrescriptionStatus.approved) ∧
    (d.items.isEmpty = false → d.shippingAddress ≠ "" →
      (∃ u, db.users.find? (fun x => x.id == userId) = some u) →
      processItems d.items 0 false [] db = (Except.ok (t, true, pend), db1) →
      approvedRxFor db userId d.prescriptionId = none →
      ∃ e, createOrder userId d newOrderId newItemIds db = (Except.error e, db) ∧
        e.statusCode = 400) ∧
    (d.items.isEmpty = false → d.shippingAddress ≠ "" →
      (∃ u, db.users.find? (fun x => x.id == userId) = some u) →
      processItems d.items 0 false [] db = (Except.ok (t, false, pend), db1) →
      0 < t →
      ∃ s1 db2, createOrder userId d newOrderId newItemIds db = (Except.ok s1, db2)) ∧
    (processItems d.items 0 false [] db = (Except.ok (t, false, pend), db1) →
      (createOrder userId d newOrderId newItemIds { db with prescriptions := ps }).1 =
        (createOrder userId d newOrderId newItemIds db).1) := by
  refine ⟨?_, ?_, ?_, ?_⟩
  · intro h hany
    obtain ⟨user, _, _, _, _, _, _, _, _, hrx, _, _⟩ :=
      createOrder_ok userId d newOrderId newItemIds db s db' h
    have hne := hrx hany
    unfold approvedRxFor at hne
    cases hjs : jsTruthyStr d.prescriptionId with
    | none =>
      rw [hjs] at hne
      exact absurd rfl hne
    | some pid =>
      rw [hjs] at hne
      cases hfr : db.prescriptions.find? (fun pr =>
          pr.id == pid && pr.userId == userId &&
            pr.status == PrescriptionStatus.approved) with
      | none => exact absurd hfr hne
      | some pr =>
        obtain ⟨hmem, hid, huid, hst⟩ := findRx_facts hfr
        exact ⟨pid, pr, rfl, hmem, hid, huid, hst⟩
  · intro hempty haddr hu hpi hnone
    obtain ⟨u, hufind⟩ := hu
    obtain ⟨_, _, _, hrxs1, _, _, _, _, _⟩ :=
      processItems_ok d.items 0 false [] db t true pend db1 hpi
    unfold approvedRxFor at hnone
    cases hjs : jsTruthyStr d.prescriptionId with
    | none =>
      refine ⟨⟨"Prescription is required for this order", 400⟩, ?_, rfl⟩
      have hbody : createOrderTxn userId d newOrderId newItemIds u.id db =
          (Except.error ⟨"Prescription is required for this order", 400⟩, db1) := by
        unfold createOrderTxn
        rw [hpi]
        show finishOrder userId d newOrderId newItemIds u.id t true pend db1 = _
        unfold finishOrder
        rw [if_pos rfl, hjs]
      unfold createOrder
      rw [if_neg (by simp [hempty]), if_neg haddr]
      simp only [hufind]
      exact transaction_error_of_body db db1 _ _ hbody
    | some pid =>
      rw [hjs] at hnone
      have hfr : db1.prescriptions.find? (fun pr =>
          pr.id == pid && pr.userId == userId &&
            pr.status == PrescriptionStatus.approved) = none := by
        rw [hrxs1]
        exact hnone
      refine ⟨⟨"Valid approved prescription is required", 400⟩, ?_, rfl⟩
      have hbody : createOrderTxn userId d newOrderId newItemIds u.id db =
          (Except.error ⟨"Valid approved prescription is required", 400⟩, db1) := by
        unfold createOrderTxn
        rw [hpi]
        show finishOrder userId d newOrderId newItemIds u.id t true pend db1 = _
        unfold finishOrder
        rw [if_pos rfl]
        simp only [hjs, hfr]
      unfold createOrder
      rw [if_neg (by simp [hempty]), if_neg haddr]
      simp only [hufind]
      exact transaction_error_of_body db db1 _ _ hbody
  · intro hempty haddr hu hpi hpos
    obtain ⟨u, hufind⟩ := hu
    refine ⟨⟨newOrderId, t, OrderStatus.pending, d.shippingAddress⟩,
      { db1 with
        orders := db1.orders ++
          [⟨newOrderId, u.id, t, OrderStatus.pending, d.shippingAddress,
            jsTruthyStr d.prescriptionId, jsTruthyStr d.notes⟩],
        orderItems := db1.orderItems ++ mkOrderItems newItemIds newOrderId pend }, ?_⟩
    have hbody : createOrderTxn userId d newOrderId newItemIds u.id db =
        (Except.ok ⟨newOrderId, t, OrderStatus.pending, d.shippingAddress⟩,
          { db1 with
            orders := db1.orders ++
              [⟨newOrderId, u.id, t, OrderStatus.pending, d.shippingAddress,
                jsTruthyStr d.prescriptionId, jsTruthyStr d.notes⟩],
            orderItems := db1.orderItems ++ mkOrderItems newItemIds newOrderId pend }) := by
      unfold createOrderTxn
      rw [hpi]
      show finishOrder userId d newOrderId newItemIds u.id t false pend db1 = _
      unfold finishOrder
      rw [if_neg (by simp : ¬(false = true))]
      rw [if_pos (show validateOrderEntity
          { id := newOrderId, userId := u.id, totalAmount := t,
            status := OrderStatus.pending, shippingAddress := d.shippingAddress,
            prescriptionId := jsTruthyStr d.prescriptionId,
            notes := jsTruthyStr d.notes } = true from decide_eq_true hpos)]
    unfold createOrder
    rw [if_neg (by simp [hempty]), if_neg haddr]
    simp only [hufind]
    unfold transaction
    rw [hbody]
  · intro hpi
    exact createOrder_fst_noRx userId d newOrderId newItemIds db ps t pend db1 hpi

set_option maxRecDepth 1000000 in
/-- C3, witness: on a concrete state with one approved prescription, a
gated order succeeds only with that prescription (and exposes it), the
same cart without a prescriptionId is rejected with 400 leaving the
state unchanged, a cart of over-the-counter items succeeds without any
prescription, and its response ignores the prescriptions table. -/
theorem createOrder_prescription_gating_witness :
    (∃ pid pr, jsTruthyStr (some "rx2") = some pid ∧ pr ∈ gateDb.prescriptions ∧
      pr.id = pid ∧ pr.userId = "u1" ∧ pr.status = PrescriptionStatus.approved) ∧
    (∃ e, createOrder "u1" ⟨[⟨"p3", 1⟩], "addr", none, none⟩ "o9" ["i9"] gateDb =
        (Except.error e, gateDb) ∧ e.statusCode = 400) ∧
    (∃ s1 db2, createOrder "u1" ⟨[⟨"p1", 2⟩], "addr", none, none⟩ "o8" ["i8"] gateDb =
        (Except.ok s1, db2)) ∧
    (createOrder "u1" ⟨[⟨"p1", 2⟩], "addr", none, none⟩ "o8" ["i8"]
        { gateDb with prescriptions := [] }).1 =
      (createOrder "u1" ⟨[⟨"p1", 2⟩], "addr", none, none⟩ "o8" ["i8"] gateDb).1 := by
  refine ⟨?_, ?_, ?_, ?_⟩
  · exact (createOrder_prescription_gating "u1" ⟨[⟨"p3", 1⟩], "addr", some "rx2", none⟩
      "o9" ["i9"] gateDb ⟨"o9", 7, OrderStatus.pending, "addr"⟩ gateDbAfter gateDb1 7
      [⟨"p3", 1, 7, 7⟩] []).1 (by decide) (by decide)
  · exact (createOrder_prescription_gating "u1" ⟨[⟨"p3", 1⟩], "addr", none, none⟩
      "o9" ["i9"] gateDb ⟨"o9", 7, OrderStatus.pending, "addr"⟩ gateDbAfter gateDb1 7
      [⟨"p3", 1, 7, 7⟩] []).2.1 (by decide) (by decide) ⟨sampleUser, by decide⟩
      (by decide) (by decide)
  · exact (createOrder_prescription_gating "u1" ⟨[⟨"p1", 2⟩], "addr", none, none⟩
      "o8" ["i8"] gateDb ⟨"o8", 2, OrderStatus.pending, "addr"⟩ gateDbAfter gateDb1c 2
      [⟨"p1", 2, 1, 2⟩] []).2.2.1 (by decide) (by decide) ⟨sampleUser, by decide⟩
      (by decide) (by decide)
  · exact (createOrder_prescription_gating "u1" ⟨[⟨"p1", 2⟩], "addr", none, none⟩
      "o8" ["i8"] gateDb ⟨"o8", 2, OrderStatus.pending, "addr"⟩ gateDbAfter gateDb1c 2
      [⟨"p1", 2, 1, 2⟩] []).2.2.2 (by decide)

/-- C9: uploadPrescription only ever creates a PENDING prescription;
reviewPrescription succeeds exactly when the target status is APPROVED
or REJECTED and the prescription is still PENDING, and changes nothing
on any error; deletePrescription removes only PENDING prescriptions and
changes nothing on any error; consequently, once a prescription has left
PENDING, no operation of the system ever changes or removes its row. -/
theorem prescription_review_state_machine (db : DB) :
    (∀ userId fd newId res db2,
      uploadPrescription userId fd newId db = (Except.ok res, db2) →
        res.status = PrescriptionStatus.pending ∧
        db2.prescriptions = db.prescriptions ++ [res]) ∧
    (∀ prescriptionId st notes adminId db2,
      reviewPrescription prescriptionId st notes adminId db = (Except.ok (), db2) →
        (st = PrescriptionStatus.approved ∨ st = PrescriptionStatus.rejected) ∧
        ∃ p, db.prescriptions.find? (fun x => x.id == prescriptionId) = some p ∧
          p.status = PrescriptionStatus.pending) ∧
    (∀ prescriptionId st notes adminId e db2,
      reviewPrescription prescriptionId st notes adminId db = (Except.error e, db2) →
        db2 = db) ∧
    (∀ userId prescriptionId db2,
      deletePrescription userId prescriptionId db = (Except.ok (), db2) →
        ∃ p, db.prescriptions.find?
            (fun x => x.id == prescriptionId && x.userId == userId) = some p ∧
          p.status = PrescriptionStatus.pending ∧
          db2.prescriptions = db.prescriptions.filter (fun x => x.id != p.id)) ∧
    (∀ userId prescriptionId e db2,
      deletePrescription userId prescriptionId db = (Except.error e, db2) → db2 = db) ∧
    (rxIdsUnique db →
      ∀ p ∈ db.prescriptions, p.status ≠ PrescriptionStatus.pending →
        ∀ op, p ∈ (applySysOp db op).prescriptions) := by
  refine ⟨?_, ?_, ?_, ?_, ?_, ?_⟩
  · intro userId fd newId res db2 h
    unfold uploadPrescription at h
    cases huser : db.users.find? (fun u => u.id == userId) with
    | none => simp only [huser] at h; simp at h
    | some u =>
      simp only [huser] at h
      split at h
      · simp at h
      · split at h
        · simp at h
        · split at h
          · simp at h
          · split at h
            · simp only [Prod.mk.injEq, Except.ok.injEq] at h
              constructor
              · rw [← h.1]
              · rw [← h.2, ← h.1]
            · simp at h
  · intro prescriptionId st notes adminId db2 h
    unfold reviewPrescription at h
    split at h
    · simp at h
    · rename_i hstOK
      cases hfr : db.prescriptions.find? (fun x => x.id == prescriptionId) with
      | none => simp only [hfr] at h; simp at h
      | some p =>
        simp only [hfr] at h
        split at h
        · simp at h
        · rename_i hpend
          rcases not_and_or.mp hstOK with h1 | h2
          · exact ⟨Or.inl (not_not.mp h1), p, rfl, not_not.mp hpend⟩
          · exact ⟨Or.inr (not_not.mp h2), p, rfl, not_not.mp hpend⟩
  · intro prescriptionId st notes adminId e db2 h
    unfold reviewPrescription at h
    split at h
    · simp only [Prod.mk.injEq] at h
      exact h.2.symm
    · cases hfr : db.prescriptions.find? (fun x => x.id == prescriptionId) with
      | none =>
        simp only [hfr, Prod.mk.injEq] at h
        exact h.2.symm
      | some p =>
        simp only [hfr] at h
        split at h
        · simp only [Prod.mk.injEq] at h
          exact h.2.symm
        · simp at h
  · intro userId prescriptionId db2 h
    unfold deletePrescription at h
    cases hfr : db.prescriptions.find?
        (fun x => x.id == prescriptionId && x.userId == userId) with
    | none => simp only [hfr] at h; simp at h
    | some p =>
      simp only [hfr] at h
      split at h
      · simp at h
      · rename_i hpend
        simp only [Prod.mk.injEq] at h
        refine ⟨p, rfl, not_not.mp hpend, ?_⟩
        rw [← h.2]
  · intro userId prescriptionId e db2 h
    unfold deletePrescription at h
    cases hfr : db.prescriptions.find?
        (fun x => x.id == prescriptionId && x.userId == userId) with
    | none =>
      simp only [hfr, Prod.mk.injEq] at h
      exact h.2.symm
    | some p =>
      simp only [hfr] at h
      split at h
      · simp only [Prod.mk.injEq] at h
        exact h.2.symm
      · simp at h
  · intro huniq p hp hnp op
    cases op with
    | upload u fd nid =>
      show p ∈ (uploadPrescription u fd nid db).2.prescriptions
      rcases uploadPrescription_extend u fd nid db with hext | ⟨x, hext⟩
      · rw [hext]; exact hp
      · rw [hext]; exact List.mem_append_left _ hp
    | review pid st notes aid =>
      show p ∈ (reviewPrescription pid st notes aid db).2.prescriptions
      rcases reviewPrescription_shape pid st notes aid db with hsh | ⟨q, hfq, hqp, hsh⟩
      · rw [hsh]; exact hp
      · rw [hsh]
        refine savePrescription_mem_other db _ p hp ?_
        intro hc
        have hqmem : q ∈ db.prescriptions := List.mem_of_find?_eq_some hfq
        have hpq : p = q := rx_eq_of_same_id db.prescriptions huniq p q hp hqmem hc
        exact hnp (by rw [hpq]; exact hqp)
    | removeRx u pid =>
      show p ∈ (deletePrescription u pid db).2.prescriptions
      rcases deletePrescription_shape u pid db with hsh | ⟨q, hfq, hqp, hsh⟩
      · rw [hsh]; exact hp
      · rw [hsh]
        refine List.mem_filter.mpr ⟨hp, ?_⟩
        have hqmem : q ∈ db.prescriptions := List.mem_of_find?_eq_some hfq
        have hne : p.id ≠ q.id := fun hc =>
          hnp (by rw [rx_eq_of_same_id db.prescriptions huniq p q hp hqmem hc]; exact hqp)
        simp [hne]
    | create u d oid iids =>
      show p ∈ (createOrder u d oid iids db).2.prescriptions
      rw [createOrder_prescriptions]
      exact hp
    | cancel u oid =>
      show p ∈ (cancelOrder u oid db).2.prescriptions
      rw [cancelOrder_prescriptions]
      exact hp
    | refund u r =>
      show p ∈ (processRefund u r db).2.prescriptions
      rw [processRefund_prescriptions]
      exact hp
    | setStatus oid st =>
      show p ∈ (updateOrderStatus oid st db).2.prescriptions
      rw [updateOrderStatus_prescriptions]
      exact hp

set_option maxRecDepth 100000 in
/-- C9, witness: on a concrete state with one PENDING and one APPROVED
prescription, an upload creates a PENDING row, approving the PENDING one
succeeds, reviewing a missing id errors without change, deleting the
PENDING one removes exactly it, deleting the APPROVED one errors without
change, and a review aimed at the APPROVED one leaves its row in place. -/
theorem prescription_review_state_machine_witness :
    (rxNew.status = PrescriptionStatus.pending ∧
      rxDbUploaded.prescriptions = rxDb.prescriptions ++ [rxNew]) ∧
    ((PrescriptionStatus.approved = PrescriptionStatus.approved ∨
        PrescriptionStatus.approved = PrescriptionStatus.rejected) ∧
      ∃ p, rxDb.prescriptions.find? (fun x => x.id == "rx1") = some p ∧
        p.status = PrescriptionStatus.pending) ∧
    (rxDb = rxDb) ∧
    (∃ p, rxDb.prescriptions.find?
        (fun x => x.id == "rx1" && x.userId == "u1") = some p ∧
      p.status = PrescriptionStatus.pending ∧
      rxDbDeleted.prescriptions = rxDb.prescriptions.filter (fun x => x.id != p.id)) ∧
    (rxDb = rxDb) ∧
    sampleApprovedRx ∈
      (applySysOp rxDb (SysOp.review "rx2" PrescriptionStatus.approved none none)).prescriptions := by
  refine ⟨?_, ?_, ?_, ?_, ?_, ?_⟩
  · exact (prescription_review_state_machine rxDb).1 "u1" rxUpload "rx9" rxNew
      rxDbUploaded (by decide)
  · exact (prescription_review_state_machine rxDb).2.1 "rx1" PrescriptionStatus.approved
      none none rxDbReviewed (by decide)
  · exact (prescription_review_state_machine rxDb).2.2.1 "missing"
      PrescriptionStatus.approved none none ⟨"Prescription not found", 404⟩ rxDb (by decide)
  · exact (prescription_review_state_machine rxDb).2.2.2.1 "u1" "rx1" rxDbDeleted (by decide)
  · exact (prescription_review_state_machine rxDb).2.2.2.2.1 "u1" "rx2"
      ⟨"Only pending prescriptions can be deleted", 400⟩ rxDb (by decide)
  · exact (prescription_review_state_machine rxDb).2.2.2.2.2 (by decide) sampleApprovedRx
      (by decide) (by decide) (SysOp.review "rx2" PrescriptionStatus.approved none none)

end EPharma
